import Mathlib

/-!
# BootlegPhysics: a shallow embedding of `scripts/script.js`

The physics core of the repository (the functions `updatePhysics`,
`constrainCollisions`, `timeOfIntersectPlaneLine`, `isInsideTriangle` and the
class `GameObject`) is embedded as pure functions over an arbitrary linearly
ordered field `K`, which stands for exact arithmetic on JavaScript numbers.
Mutable objects become values that are passed and returned explicitly; the
entries of the registry are taken to be distinct objects. A JavaScript
quotient with denominator zero (`Infinity`, `-Infinity`, `NaN`) is `none`.
The functions of the three.js library the script calls (`applyEuler`,
`angleTo`, `length`) and of JavaScript's `Math` are not part of the
repository: they are a parameter `L : Three K`, and `three : Three ℝ` is the
library over the real numbers.
-/

set_option linter.unusedSectionVars false
set_option linter.unusedVariables false

namespace Bootleg

/-! ## Vectors and Euler angles -/

/-- A three.js `Vector3`. -/
structure Vector3 (K : Type) where
  x : K
  y : K
  z : K
deriving DecidableEq

/-- A three.js `Euler` (rotation order XYZ), with the script's added methods. -/
structure Euler (K : Type) where
  x : K
  y : K
  z : K
deriving DecidableEq

namespace Vector3
variable {K : Type} [LinearOrderedField K]

/-- `Vector3.add`. -/
def add (u v : Vector3 K) : Vector3 K := ⟨u.x + v.x, u.y + v.y, u.z + v.z⟩

/-- `Vector3.sub`. -/
def sub (u v : Vector3 K) : Vector3 K := ⟨u.x - v.x, u.y - v.y, u.z - v.z⟩

/-- `Vector3.multiplyScalar`. -/
def multiplyScalar (u : Vector3 K) (s : K) : Vector3 K := ⟨u.x * s, u.y * s, u.z * s⟩

/-- `Vector3.dot`. -/
def dot (u v : Vector3 K) : K := u.x * v.x + u.y * v.y + u.z * v.z

/-- `Vector3.lengthSq`. -/
def lengthSq (u : Vector3 K) : K := u.x * u.x + u.y * u.y + u.z * u.z

/-- `Vector3.distanceToSquared`. -/
def distanceToSquared (u v : Vector3 K) : K :=
  (u.x - v.x) * (u.x - v.x) + (u.y - v.y) * (u.y - v.y) + (u.z - v.z) * (u.z - v.z)

end Vector3

namespace Euler
variable {K : Type} [LinearOrderedField K]

/-- `Euler.prototype.add` (script.js, lines 8-13). -/
def add (e f : Euler K) : Euler K := ⟨e.x + f.x, e.y + f.y, e.z + f.z⟩

/-- `Euler.prototype.scale` (script.js, lines 15-20). -/
def scale (e : Euler K) (scalar : K) : Euler K := ⟨e.x * scalar, e.y * scalar, e.z * scalar⟩

/-- `Euler.prototype.lengthSq` (script.js, lines 22-24). -/
def lengthSq (e : Euler K) : K := e.x * e.x + e.y * e.y + e.z * e.z

end Euler

/-- The functions of three.js and of `Math` that the script calls and that
are not rational operations: they are a parameter of the embedding. -/
structure Three (K : Type) where
  /-- `Vector3.applyEuler`: the vector rotated by the Euler angles. -/
  applyEuler : Vector3 K → Euler K → Vector3 K
  /-- `Vector3.angleTo`: the angle between two vectors, in radians. -/
  angleTo : Vector3 K → Vector3 K → K
  /-- `Vector3.length`. -/
  length : Vector3 K → K
  /-- `Math.cos`. -/
  cos : K → K
  /-- `Math.PI`. -/
  PI : K

/-- `Vector3.normalize`, in three.js `this.divideScalar(this.length() || 1)`. -/
def normalize {K : Type} [LinearOrderedField K] (L : Three K) (v : Vector3 K) : Vector3 K :=
  let l := L.length v
  v.multiplyScalar (1 / (if l = 0 then 1 else l))

/-- A three.js `Sphere`. -/
structure Sphere (K : Type) where
  center : Vector3 K
  radius : K

namespace Sphere
variable {K : Type} [LinearOrderedField K]

/-- `Sphere.intersectsSphere`: the squared distance of the centres is at most
the square of the sum of the radii. -/
def intersectsSphere (s t : Sphere K) : Bool :=
  let radiusSum := s.radius + t.radius
  decide (t.center.distanceToSquared s.center ≤ radiusSum * radiusSum)

/-- `Sphere.containsPoint`. -/
def containsPoint (s : Sphere K) (point : Vector3 K) : Bool :=
  decide (point.distanceToSquared s.center ≤ s.radius * s.radius)

end Sphere

/-! ## Bodies -/

/-- A triangular face of a three.js `Geometry` with `n` vertices: three
vertex indices and the face normal. -/
structure Face (K : Type) (n : Nat) where
  a : Fin n
  b : Fin n
  c : Fin n
  normal : Vector3 K

/-- The `geoBound` of a body: a three.js `Geometry` (vertices, faces and the
bounding sphere computed by the constructor). -/
structure Geometry (K : Type) where
  vertices : List (Vector3 K)
  faces : List (Face K vertices.length)
  boundingSphere : Sphere K

/-- The class `ForceVector` (script.js, lines 325-330). -/
structure ForceVector (K : Type) where
  force : Vector3 K
  position : Vector3 K

/-- What a force callback `force(position, mass)` can do: throw, return a
value that is not a `ForceVector`, or return a `ForceVector`. -/
inductive ForceResult (K : Type) where
  | threw : ForceResult K
  | other : ForceResult K
  | vector : ForceVector K → ForceResult K

/-- A force callback, as stored in `worldForces` and passed to `applyForce`. -/
abbrev ForceFn (K : Type) := Vector3 K → K → ForceResult K

/-- The physical state of the class `GameObject` (script.js, lines 251-269);
the `graphicsObject` is the renderer's and is left out. -/
structure GameObject (K : Type) where
  geoBound : Geometry K
  position : Vector3 K
  rotation : Euler K
  mass : K
  needsUpdate : Bool
  forces : List (ForceVector K)
  elasticity : K
  velocity : Vector3 K
  rotationalVelocity : Euler K

namespace GameObject
variable {K : Type} [LinearOrderedField K]

/-- `GameObject.updateVelocity` (script.js, lines 271-284). The clones `v`
and `drv` scaled at the end of the method are discarded by it. -/
def updateVelocity (obj : GameObject K) (ms : K) : GameObject K :=
  let temp := obj.forces
  let velocity := temp.foldl
    (fun (v : Vector3 K) (force : ForceVector K) =>
      ({ x := v.x + force.force.x / obj.mass * ms,
         y := v.y + force.force.y / obj.mass * ms,
         z := v.z + force.force.z / obj.mass * ms } : Vector3 K))
    obj.velocity
  { obj with forces := [], velocity := velocity }

/-- `GameObject.applyForce` (script.js, lines 293-302): the error of a
throwing callback is caught and logged. -/
def applyForce (obj : GameObject K) (force : ForceFn K) : GameObject K :=
  match force obj.position obj.mass with
  | ForceResult.vector forceVector =>
    if obj.needsUpdate then { obj with forces := obj.forces ++ [forceVector] } else obj
  | ForceResult.other => obj
  | ForceResult.threw => obj

/-- `GameObject.move` (script.js, lines 304-307). -/
def move (obj : GameObject K) (vector : Vector3 K) : GameObject K :=
  { obj with position := obj.position.add vector }

/-- `GameObject.rotate` (script.js, lines 309-312). -/
def rotate (obj : GameObject K) (euler : Euler K) : GameObject K :=
  { obj with rotation := obj.rotation.add euler }

end GameObject

/-! ## Narrow phase -/

section Narrow
variable {K : Type} [LinearOrderedField K]

/-- `timeOfIntersectPlaneLine` (script.js, lines 364-378). A zero denominator
makes the JavaScript quotient `Infinity`, `-Infinity` or `NaN`: that is
`none` here. -/
def timeOfIntersectPlaneLine (lineVector linePoint planeNormal planePoint : Vector3 K) :
    Option K :=
  let denominator :=
    planeNormal.x * lineVector.x + planeNormal.y * lineVector.y + planeNormal.z * lineVector.z
  if denominator = 0 then none
  else some
    ((-planeNormal.x * (linePoint.x - planePoint.x)
        - planeNormal.y * (linePoint.y - planePoint.y)
        - planeNormal.z * (linePoint.z - planePoint.z)) / denominator)

/-- `isInsideTriangle` (script.js, lines 390-417). In the second test the
script overwrites `a` and `c` with `a - b` and `c - b`; its callers pass
fresh clones. -/
def isInsideTriangle (L : Three K) (point a b c : Vector3 K) : Bool :=
  let v1 := b.sub a
  let v2 := c.sub a
  let v3 := point.sub a
  let omega1 := L.angleTo v1 v2
  let omega2 := L.angleTo v2 v3
  let omega3 := L.angleTo v1 v3
  let tot := omega3 + omega2 - omega1
  if tot < 1 / 1000 ∧ tot > -(1 / 1000) then
    let v1 := a.sub b
    let v2 := c.sub b
    let v3 := point.sub b
    let omega1 := L.angleTo v1 v2
    let omega2 := L.angleTo v2 v3
    let omega3 := L.angleTo v1 v3
    let tot := omega3 + omega2 - omega1
    if tot < 1 / 1000 ∧ tot > -(1 / 1000) then true else false
  else false


/-- The locals of `constrainCollisions` that its two loops assign
(script.js, lines 87-92). -/
structure Contact (K : Type) where
  collisionTime : K
  normalForce : Vector3 K
  contactPoint : Option (Vector3 K)
  constrainedVelocity : Vector3 K

/-- The callback of `geo2.faces.forEach` in the first loop of
`constrainCollisions` (script.js, lines 110-146): a vertex of `obj1` at
`point`, moving by `velocity`, against a face of `obj2`. A non-finite `time`
fails the window test. -/
def forwardFace (L : Three K) (obj2 : GameObject K) (velocity point : Vector3 K)
    (s : Contact K) (face : Face K obj2.geoBound.vertices.length) : Contact K :=
  let faceNormal := L.applyEuler face.normal obj2.rotation
  if faceNormal.dot velocity ≤ 0 then
    let facePoint :=
      (L.applyEuler (obj2.geoBound.vertices.get face.a) obj2.rotation).add obj2.position
    match timeOfIntersectPlaneLine velocity point faceNormal facePoint with
    | none => s
    | some time =>
      if time ≥ -(1 / 100) ∧ time < 11 / 10 then
        let a := L.applyEuler (obj2.geoBound.vertices.get face.a) obj2.rotation
        let b := L.applyEuler (obj2.geoBound.vertices.get face.b) obj2.rotation
        let c := L.applyEuler (obj2.geoBound.vertices.get face.c) obj2.rotation
        let relPointVect : Vector3 K :=
          ⟨velocity.x * time + point.x, velocity.y * time + point.y, velocity.z * time + point.z⟩
        let p := relPointVect.sub obj2.position
        if isInsideTriangle L p a b c then
          let time := if time > 1 then 1 else time
          if time < s.collisionTime then
            { s with
              normalForce := faceNormal.multiplyScalar (-1)
              contactPoint := some relPointVect
              constrainedVelocity := velocity.multiplyScalar time }
          else s
        else s
      else s
  else s

/-- The callback of `geo1.vertices.forEach` (script.js, lines 95-147). -/
def forwardVertex (L : Three K) (vel : Vector3 K) (objRot : Euler K) (obj1 obj2 : GameObject K)
    (s : Contact K) (vertex : Vector3 K) : Contact K :=
  let point := L.applyEuler vertex obj1.rotation
  let velocity :=
    if obj1.rotationalVelocity.lengthSq ≠ 0 then
      (point.sub (L.applyEuler vertex (obj1.rotation.add objRot))).add vel
    else vel
  let point := point.add obj1.position
  obj2.geoBound.faces.foldl (forwardFace L obj2 velocity point) s

/-- The callback of `geo1.faces.forEach` in the second loop of
`constrainCollisions` (script.js, lines 151-192): a vertex of `obj2`, moving
by `velocity = -vel` relative to `obj1`, against a face of `obj1`. -/
def reverseFace (L : Three K) (obj1 obj2 : GameObject K) (vertex velocity : Vector3 K)
    (s : Contact K) (face : Face K obj1.geoBound.vertices.length) : Contact K :=
  let point := (L.applyEuler vertex obj2.rotation).add obj2.position
  let faceNormal := L.applyEuler face.normal obj1.rotation
  if faceNormal.dot velocity ≤ 0 then
    let facePoint :=
      (L.applyEuler (obj1.geoBound.vertices.get face.a) obj1.rotation).add obj1.position
    match timeOfIntersectPlaneLine velocity point faceNormal facePoint with
    | none => s
    | some time =>
      if time ≥ -(1 / 100) ∧ time ≤ 101 / 100 then
        let a := L.applyEuler (obj1.geoBound.vertices.get face.a) obj1.rotation
        let b := L.applyEuler (obj1.geoBound.vertices.get face.b) obj1.rotation
        let c := L.applyEuler (obj1.geoBound.vertices.get face.c) obj1.rotation
        let relPointVect : Vector3 K :=
          ⟨velocity.x * time + point.x, velocity.y * time + point.y, velocity.z * time + point.z⟩
        let p := relPointVect.sub obj1.position
        if isInsideTriangle L p a b c then
          let time := if time > 1 then 1 else time
          let time := 1 - time
          if time < s.collisionTime then
            { s with
              normalForce := faceNormal.multiplyScalar (-1)
              contactPoint := some relPointVect
              constrainedVelocity := velocity.multiplyScalar (-1 * time) }
          else s
        else s
      else s
  else s

/-- The callback of `geo2.vertices.forEach` (script.js, lines 149-193). -/
def reverseVertex (L : Three K) (vel : Vector3 K) (obj1 obj2 : GameObject K)
    (s : Contact K) (vertex : Vector3 K) : Contact K :=
  let velocity := vel.multiplyScalar (-1)
  obj1.geoBound.faces.foldl (reverseFace L obj1 obj2 vertex velocity) s

/-- The two loops of `constrainCollisions` (script.js, lines 87-193): the
values of `collisionTime`, `normalForce`, `contactPoint` and
`constrainedVelocity` when they end. -/
def narrowPhase (L : Three K) (vel : Vector3 K) (objRot : Euler K) (obj1 obj2 : GameObject K) :
    Contact K :=
  let s0 : Contact K :=
    { collisionTime := 2
      normalForce := ⟨0, 0, 0⟩
      contactPoint := none
      constrainedVelocity := vel }
  let s1 := obj1.geoBound.vertices.foldl (forwardVertex L vel objRot obj1 obj2) s0
  obj2.geoBound.vertices.foldl (reverseVertex L vel obj1 obj2) s1

/-- The speed `vaf` of `obj1` after the 1D collision (script.js, lines 203-205). -/
def speedAfterA (m1 m2 vai vbi : K) : K :=
  (m1 - m2) / (m1 + m2) * vai + 2 * m2 / (m1 + m2) * vbi

/-- The speed `vbf` of `obj2` after the 1D collision (script.js, lines 206-208). -/
def speedAfterB (m1 m2 vai vbi : K) : K :=
  2 * m1 / (m1 + m2) * vai + (m2 - m1) / (m1 + m2) * vbi

/-- `constrainCollisions` (script.js, lines 86-226): the returned pair
`[constrainedVelocity, constrainedRotation]`, then `obj1` and `obj2` with the
impulses queued by the two `applyForce` calls. -/
def constrainCollisions (L : Three K) (vel : Vector3 K) (objRot : Euler K)
    (obj1 obj2 : GameObject K) : (Vector3 K × Euler K) × GameObject K × GameObject K :=
  let s := narrowPhase L vel objRot obj1 obj2
  let constrainedRotation := objRot
  match s.contactPoint with
  | some contactPoint =>
    let vai := L.cos (L.PI - L.angleTo vel s.normalForce) * L.length vel * 1000
    let vbi := L.cos (L.PI - L.angleTo obj2.velocity s.normalForce) * L.length obj2.velocity * 1000
    let vaf := speedAfterA obj1.mass obj2.mass vai vbi
    let vbf := speedAfterB obj1.mass obj2.mass vai vbi
    let nf := normalize L s.normalForce
    let obj1' := obj1.applyForce (fun _ _ =>
      ForceResult.vector
        ⟨nf.multiplyScalar ((vai - vaf) * obj1.mass * obj1.elasticity),
         contactPoint.sub obj1.position⟩)
    let obj2' := obj2.applyForce (fun _ _ =>
      ForceResult.vector
        ⟨nf.multiplyScalar ((vbi - vbf) * obj2.mass * obj2.elasticity),
         contactPoint.sub obj2.position⟩)
    ((s.constrainedVelocity, constrainedRotation), obj1', obj2')
  | none => ((s.constrainedVelocity, constrainedRotation), obj1, obj2)

end Narrow

/-! ## The step -/

section Step
variable {K : Type} [LinearOrderedField K]

/-- The `params` argument of `updatePhysics`: `worldForces` may be absent. -/
structure Params (K : Type) where
  worldForces : Option (List (ForceFn K))

/-- The sphere `sphere1` of `updatePhysics` (script.js, lines 56-61): the
bounding sphere of `obj1` with its centre replaced by
`obj1.position + velVector`. -/
def sphere1 (obj1 : GameObject K) (velVector : Vector3 K) : Sphere K :=
  { center := obj1.position.add velVector
    radius := obj1.geoBound.boundingSphere.radius }

/-- The sphere `sphere2` of `updatePhysics` (script.js, lines 57-62): the
bounding sphere of `obj2` with its centre replaced by `obj2.position`. -/
def sphere2 (obj2 : GameObject K) : Sphere K :=
  { center := obj2.position
    radius := obj2.geoBound.boundingSphere.radius }

/-- The world-space vertices of a body: each geometry vertex rotated by the
body's rotation and moved to its position, as `constrainCollisions` does. -/
def worldVertices (L : Three K) (obj : GameObject K) : List (Vector3 K) :=
  obj.geoBound.vertices.map (fun vertex => (L.applyEuler vertex obj.rotation).add obj.position)

/-- One pass of the loop over `j` in `updatePhysics` (script.js, lines
53-79), on the registry and the locals `velVector` and `rotVector`. -/
def collideWith (L : Three K) (i : Nat)
    (st : List (GameObject K) × Vector3 K × Euler K) (j : Nat) :
    List (GameObject K) × Vector3 K × Euler K :=
  if i = j then st
  else
    match st.1[i]?, st.1[j]? with
    | some obj1, some obj2 =>
      let velVector := st.2.1
      let rotVector := st.2.2
      if (sphere1 obj1 velVector).intersectsSphere (sphere2 obj2) then
        let r := constrainCollisions L velVector rotVector obj1 obj2
        let vel := r.1.1
        let rot := r.1.2
        let objects := (st.1.set i r.2.1).set j r.2.2
        (objects,
         if vel.lengthSq < velVector.lengthSq then vel else velVector,
         if rot.lengthSq < rotVector.lengthSq then rot else rotVector)
      else st
    | _, _ => st

/-- The part of the loop body of `updatePhysics` before `rotate` and `move`
(script.js, lines 41-80) for the body `obj1 = objects[i]`: the registry after
it, and the final `velVector` and `rotVector`. -/
def turnMotion (L : Three K) (ms : K) (params : Params K) (objects : List (GameObject K))
    (i : Nat) (obj1 : GameObject K) : List (GameObject K) × Vector3 K × Euler K :=
  let velVector := obj1.velocity
  let rotVector := obj1.rotationalVelocity
  if obj1.needsUpdate then
    let obj1 :=
      match params.worldForces with
      | some worldForces => worldForces.foldl GameObject.applyForce obj1
      | none => obj1
    let obj1 := obj1.updateVelocity ms
    (List.range objects.length).foldl (collideWith L i) (objects.set i obj1, velVector, rotVector)
  else (objects, velVector, rotVector)

/-- The loop body of `updatePhysics` (script.js, lines 40-82) for index `i`. -/
def bodyTurn (L : Three K) (ms : K) (params : Params K) (objects : List (GameObject K))
    (i : Nat) : List (GameObject K) :=
  match objects[i]? with
  | none => objects
  | some obj1 =>
    let r := turnMotion L ms params objects i obj1
    match r.1[i]? with
    | none => r.1
    | some obj1 => r.1.set i ((obj1.rotate r.2.2).move r.2.1)

/-- `updatePhysics` (script.js, lines 36-84). -/
def updatePhysics (L : Three K) (objects : List (GameObject K)) (ms : K) (params : Params K) :
    List (GameObject K) :=
  let ms := ms * (1 / 1000)
  (List.range objects.length).foldl (bodyTurn L ms params) objects

/-- The gravity source pushed to `worldForces` (script.js, lines 667-669). -/
def gravity : ForceFn K := fun _ mass =>
  ForceResult.vector ⟨⟨0, -(98 / 10) * mass, 0⟩, ⟨0, 0, 0⟩⟩

end Step

/-! ## The library over the real numbers -/

/-- A three.js `Quaternion`. -/
structure Quaternion (K : Type) where
  x : K
  y : K
  z : K
  w : K

/-- `Quaternion.setFromEuler` for the default order XYZ. -/
def Quaternion.setFromEuler {K : Type} [LinearOrderedField K] (cos sin : K → K) (euler : Euler K) :
    Quaternion K :=
  let c1 := cos (euler.x / 2)
  let c2 := cos (euler.y / 2)
  let c3 := cos (euler.z / 2)
  let s1 := sin (euler.x / 2)
  let s2 := sin (euler.y / 2)
  let s3 := sin (euler.z / 2)
  { x := s1 * c2 * c3 + c1 * s2 * s3
    y := c1 * s2 * c3 - s1 * c2 * s3
    z := c1 * c2 * s3 + s1 * s2 * c3
    w := c1 * c2 * c3 - s1 * s2 * s3 }

/-- `Vector3.applyQuaternion`. -/
def Vector3.applyQuaternion {K : Type} [LinearOrderedField K] (v : Vector3 K) (q : Quaternion K) :
    Vector3 K :=
  let ix := q.w * v.x + q.y * v.z - q.z * v.y
  let iy := q.w * v.y + q.z * v.x - q.x * v.z
  let iz := q.w * v.z + q.x * v.y - q.y * v.x
  let iw := -q.x * v.x - q.y * v.y - q.z * v.z
  { x := ix * q.w + iw * -q.x + iy * -q.z - iz * -q.y
    y := iy * q.w + iw * -q.y + iz * -q.x - ix * -q.z
    z := iz * q.w + iw * -q.z + ix * -q.y - iy * -q.x }

/-- `MathUtils.clamp`: `Math.max(min, Math.min(max, value))`. -/
def clamp {K : Type} [LinearOrderedField K] (value lo hi : K) : K := max lo (min hi value)

/-- The three.js functions over the real numbers. `angleTo` is the arccosine
of the clamped normalised dot product, and `π / 2` when a vector has length
zero. -/
noncomputable def three : Three ℝ where
  applyEuler v euler := v.applyQuaternion (Quaternion.setFromEuler Real.cos Real.sin euler)
  angleTo u v :=
    let denominator := Real.sqrt (u.lengthSq * v.lengthSq)
    if denominator = 0 then Real.pi / 2
    else Real.arccos (clamp (u.dot v / denominator) (-1) 1)
  length v := Real.sqrt v.lengthSq
  cos := Real.cos
  PI := Real.pi

/-! ## Example bodies -/

/-- A geometry without vertices, with a bounding sphere of radius 1. -/
def noGeometry {K : Type} [LinearOrderedField K] : Geometry K :=
  { vertices := [], faces := [], boundingSphere := ⟨⟨0, 0, 0⟩, 1⟩ }

/-- A geometry of one vertex, with a bounding sphere of radius 1. -/
def pointGeometry {K : Type} [LinearOrderedField K] (v : Vector3 K) : Geometry K :=
  { vertices := [v], faces := [], boundingSphere := ⟨⟨0, 0, 0⟩, 1⟩ }

/-- A geometry of one triangle `(0,0,0), (1,0,0), (0,1,0)` with normal `(0,0,1)`. -/
def triangleGeometry {K : Type} [LinearOrderedField K] : Geometry K :=
  { vertices := [⟨0, 0, 0⟩, ⟨1, 0, 0⟩, ⟨0, 1, 0⟩]
    faces := [{ a := ⟨0, by simp⟩, b := ⟨1, by simp⟩, c := ⟨2, by simp⟩,
                normal := ⟨0, 0, 1⟩ }]
    boundingSphere := ⟨⟨0, 0, 0⟩, 1⟩ }

/-- A body at rest at the origin: mass 1, elasticity 1, nothing queued. -/
def bodyOf {K : Type} [LinearOrderedField K] (geometry : Geometry K) (active : Bool)
    (velocity : Vector3 K) : GameObject K :=
  { geoBound := geometry
    position := ⟨0, 0, 0⟩
    rotation := ⟨0, 0, 0⟩
    mass := 1
    needsUpdate := active
    forces := []
    elasticity := 1
    velocity := velocity
    rotationalVelocity := ⟨0, 0, 0⟩ }

/-- A ball of mass 2 with one force `(4, 0, 0)` queued. -/
def pushedBall {K : Type} [LinearOrderedField K] : GameObject K :=
  { geoBound := noGeometry
    position := ⟨0, 5, 0⟩
    rotation := ⟨0, 0, 0⟩
    mass := 2
    needsUpdate := true
    forces := [⟨⟨4, 0, 0⟩, ⟨0, 5, 0⟩⟩]
    elasticity := 9 / 10
    velocity := ⟨0, 0, 0⟩
    rotationalVelocity := ⟨0, 0, 0⟩ }

/-- The ball `pushedBall` with nothing queued. -/
def freeBall {K : Type} [LinearOrderedField K] : GameObject K :=
  { (pushedBall : GameObject K) with forces := [] }

/-- A one-vertex body at the origin (bounding radius 1), moving by `(10, 0, 0)`. -/
def probe {K : Type} [LinearOrderedField K] : GameObject K :=
  bodyOf (pointGeometry ⟨0, 0, 0⟩) true ⟨10, 0, 0⟩

/-- A resting body at `(5, 0, 0)` with bounding radius 1. -/
def farTarget {K : Type} [LinearOrderedField K] : GameObject K :=
  { (bodyOf noGeometry false ⟨0, 0, 0⟩ : GameObject K) with position := ⟨5, 0, 0⟩ }

/-- A resting triangle: the face `(0,0,0), (1,0,0), (0,1,0)` with normal `(0,0,1)`. -/
def plate {K : Type} [LinearOrderedField K] : GameObject K :=
  bodyOf triangleGeometry false ⟨0, 0, 0⟩

/-- A body of two vertices `(0, 1, 1/4)` and `(0, 1, 1/2)` above `plate`,
falling by `(0, 0, -1)`. -/
def twoPoints {K : Type} [LinearOrderedField K] : GameObject K :=
  bodyOf
    { vertices := [⟨0, 1, 1 / 4⟩, ⟨0, 1, 1 / 2⟩], faces := [],
      boundingSphere := ⟨⟨0, 0, 0⟩, 1⟩ }
    true ⟨0, 0, -1⟩

/-- The body `twoPoints` without its second vertex. -/
def onePoint {K : Type} [LinearOrderedField K] : GameObject K :=
  bodyOf (pointGeometry ⟨0, 1, 1 / 4⟩) true ⟨0, 0, -1⟩

/-- The triangle of `plate`, rising by `(0, 0, 1)`. -/
def risingPlate {K : Type} [LinearOrderedField K] : GameObject K :=
  bodyOf triangleGeometry true ⟨0, 0, 1⟩

/-- A resting body of one vertex `(0, 1, 1/4)`, above the triangle. -/
def hangingPoint {K : Type} [LinearOrderedField K] : GameObject K :=
  bodyOf (pointGeometry ⟨0, 1, 1 / 4⟩) false ⟨0, 0, 0⟩

/-! ## Triangles -/

/-- `Vector3.cross`. -/
def Vector3.cross {K : Type} [LinearOrderedField K] (u v : Vector3 K) : Vector3 K :=
  ⟨u.y * v.z - u.z * v.y, u.z * v.x - u.x * v.z, u.x * v.y - u.y * v.x⟩

/-- The Gram determinant `|u|² |w|² - (u·w)²` of two vectors. -/
def gram {K : Type} [LinearOrderedField K] (u w : Vector3 K) : K :=
  u.lengthSq * w.lengthSq - (u.dot w) ^ 2

/-- A triangle is non-degenerate when its edges `b - a` and `c - a` are not
parallel: their cross product is not the zero vector. -/
def Nondegenerate {K : Type} [LinearOrderedField K] (a b c : Vector3 K) : Prop :=
  (b.sub a).cross (c.sub a) ≠ ⟨0, 0, 0⟩

/-- The point `a + β (b - a) + γ (c - a)` of the plane of the triangle
`a, b, c`; its barycentric weights are `1 - β - γ`, `β` and `γ`. -/
def planePoint {K : Type} [LinearOrderedField K] (a b c : Vector3 K) (β γ : K) : Vector3 K :=
  (a.add ((b.sub a).multiplyScalar β)).add ((c.sub a).multiplyScalar γ)

/-- The point `wa·a + wb·b + wc·c`. -/
def barycentric {K : Type} [LinearOrderedField K] (a b c : Vector3 K) (wa wb wc : K) :
    Vector3 K :=
  ((a.multiplyScalar wa).add (b.multiplyScalar wb)).add (c.multiplyScalar wc)

/-- The quantity `tot = omega3 + omega2 - omega1` of `isInsideTriangle`
measured at the vertex `a`, for the edge vectors `b - a`, `c - a` and the
point `P`. -/
def angleExcess {K : Type} [LinearOrderedField K] (L : Three K) (P a b c : Vector3 K) : K :=
  L.angleTo (b.sub a) (P.sub a) + L.angleTo (c.sub a) (P.sub a) - L.angleTo (b.sub a) (c.sub a)

/-- A state of the loops of `constrainCollisions` whose contact, if any, has
a non-zero normal. -/
def NormalOk {K : Type} [LinearOrderedField K] (s : Contact K) : Prop :=
  s.contactPoint ≠ none → s.normalForce.lengthSq ≠ 0

/-! ## The registry -/

/-- `Array.prototype.indexOf`: the index of the first entry that is the
searched object, or `-1` when there is none. -/
def jsIndexOf {α : Type} [DecidableEq α] (xs : List α) (x : α) : Int :=
  if List.indexOf x xs < xs.length then (List.indexOf x xs : Int) else -1

/-- `addObject` (script.js, lines 233-236) on the registry `objects`; `α` is
the type of object references, and the scene is the renderer's. -/
def addObject {α : Type} (object : α) (objects : List α) : List α :=
  objects ++ [object]

/-- `removeObject` (script.js, lines 243-249) on the registry `objects`:
`splice(index, 1)` when `indexOf` found the object. -/
def removeObject {α : Type} [DecidableEq α] (object : α) (objects : List α) : List α :=
  let index := jsIndexOf objects object
  if index ≠ -1 then objects.eraseIdx index.toNat else objects

/-! ## The calls of `timeOfIntersectPlaneLine` -/

section Calls
variable {K : Type} [LinearOrderedField K]

/-- The start of the callback of `geo2.faces.forEach` in the first loop of
`constrainCollisions` (script.js, lines 111-122): the arguments
`(velocity, point, faceNormal, facePoint)` with which it calls
`timeOfIntersectPlaneLine`, or `none` when the test
`faceNormal.dot(velocity) <= 0` rejects the face and no call is made. -/
def forwardFaceCall (L : Three K) (obj2 : GameObject K) (velocity point : Vector3 K)
    (face : Face K obj2.geoBound.vertices.length) :
    Option (Vector3 K × Vector3 K × Vector3 K × Vector3 K) :=
  let faceNormal := L.applyEuler face.normal obj2.rotation
  if faceNormal.dot velocity ≤ 0 then
    let facePoint :=
      (L.applyEuler (obj2.geoBound.vertices.get face.a) obj2.rotation).add obj2.position
    some (velocity, point, faceNormal, facePoint)
  else none

/-- The start of the callback of `geo1.faces.forEach` in the second loop of
`constrainCollisions` (script.js, lines 152-165): the arguments with which
it calls `timeOfIntersectPlaneLine`, or `none` when the face is rejected. -/
def reverseFaceCall (L : Three K) (obj1 obj2 : GameObject K) (vertex velocity : Vector3 K)
    (face : Face K obj1.geoBound.vertices.length) :
    Option (Vector3 K × Vector3 K × Vector3 K × Vector3 K) :=
  let point := (L.applyEuler vertex obj2.rotation).add obj2.position
  let faceNormal := L.applyEuler face.normal obj1.rotation
  if faceNormal.dot velocity ≤ 0 then
    let facePoint :=
      (L.applyEuler (obj1.geoBound.vertices.get face.a) obj1.rotation).add obj1.position
    some (velocity, point, faceNormal, facePoint)
  else none

/-- The face of the body `plate`. -/
def plateFace : Face K (plate : GameObject K).geoBound.vertices.length :=
  { a := ⟨0, by simp [plate, bodyOf, triangleGeometry]⟩
    b := ⟨1, by simp [plate, bodyOf, triangleGeometry]⟩
    c := ⟨2, by simp [plate, bodyOf, triangleGeometry]⟩
    normal := ⟨0, 0, 1⟩ }

end Calls

/-- An inactive body at the origin with velocity `(1, 0, 0)`. -/
def driftingWall {K : Type} [LinearOrderedField K] : GameObject K :=
  bodyOf noGeometry false ⟨1, 0, 0⟩

/-! ## Theorems -/

section PlaneLine
variable {K : Type} [LinearOrderedField K]

/-- C1: `timeOfIntersectPlaneLine(V, P0, N, Pf)` returns
`t = -(N·(P0 - Pf)) / (N·V)`, and when `N·V ≠ 0` this `t` satisfies the
plane equation `N·(P0 + t·V - Pf) = 0` exactly. -/
theorem timeOfIntersectPlaneLine_on_plane (V P0 N Pf : Vector3 K) (h : N.dot V ≠ 0) :
    timeOfIntersectPlaneLine V P0 N Pf = some (-(N.dot (P0.sub Pf)) / N.dot V) ∧
    N.dot (((P0.add (V.multiplyScalar (-(N.dot (P0.sub Pf)) / N.dot V))).sub Pf)) = 0 := by
  have h' : N.x * V.x + N.y * V.y + N.z * V.z ≠ 0 := h
  constructor
  · simp only [timeOfIntersectPlaneLine, Vector3.dot, Vector3.sub, if_neg h']
    congr 2
    ring
  · simp only [Vector3.dot, Vector3.sub, Vector3.add, Vector3.multiplyScalar]
    field_simp
    ring

/-- C1, at a concrete line and plane: the line from `(0, 0, 4)` along
`(0, 0, -2)` meets the plane `z = 1` at `t = 3/2`. -/
theorem timeOfIntersectPlaneLine_on_plane_witness :
    (Vector3.dot (⟨0, 0, 1⟩ : Vector3 ℚ) ⟨0, 0, -2⟩ ≠ 0) ∧
    (timeOfIntersectPlaneLine (⟨0, 0, -2⟩ : Vector3 ℚ) ⟨0, 0, 4⟩ ⟨0, 0, 1⟩ ⟨0, 0, 1⟩
        = some (-(Vector3.dot (⟨0, 0, 1⟩ : Vector3 ℚ)
            (Vector3.sub ⟨0, 0, 4⟩ ⟨0, 0, 1⟩)) / Vector3.dot (⟨0, 0, 1⟩ : Vector3 ℚ) ⟨0, 0, -2⟩) ∧
      Vector3.dot (⟨0, 0, 1⟩ : Vector3 ℚ)
        ((Vector3.add ⟨0, 0, 4⟩ (Vector3.multiplyScalar ⟨0, 0, -2⟩
          (-(Vector3.dot (⟨0, 0, 1⟩ : Vector3 ℚ)
            (Vector3.sub ⟨0, 0, 4⟩ ⟨0, 0, 1⟩)) / Vector3.dot (⟨0, 0, 1⟩ : Vector3 ℚ)
              ⟨0, 0, -2⟩))).sub ⟨0, 0, 1⟩) = 0) :=
  ⟨by norm_num [Vector3.dot],
   timeOfIntersectPlaneLine_on_plane _ _ _ _ (by norm_num [Vector3.dot])⟩

end PlaneLine

/-! ### updateVelocity -/

section Velocity
variable {K : Type} [LinearOrderedField K]

/-- The fold of `updateVelocity` adds to each component the sum of the
contributions. -/
theorem foldl_force_eq (forces : List (ForceVector K)) (mass ms : K) (v : Vector3 K) :
    forces.foldl
      (fun (v : Vector3 K) (force : ForceVector K) =>
        ({ x := v.x + force.force.x / mass * ms,
           y := v.y + force.force.y / mass * ms,
           z := v.z + force.force.z / mass * ms } : Vector3 K)) v
    = ⟨v.x + (forces.map (fun f => f.force.x / mass * ms)).sum,
       v.y + (forces.map (fun f => f.force.y / mass * ms)).sum,
       v.z + (forces.map (fun f => f.force.z / mass * ms)).sum⟩ := by
  induction forces generalizing v with
  | nil => simp
  | cons f fs ih => simp [List.foldl_cons, ih, add_assoc]

/-- C6: `updateVelocity(dt)` on a body of mass `≠ 0` adds to the velocity the
sum over the queued forces `f` of `(f.force / mass) * dt`, component-wise,
empties the queue, and leaves every other field unchanged. -/
theorem updateVelocity_spec (obj : GameObject K) (dt : K) (_hm : obj.mass ≠ 0) :
    (obj.updateVelocity dt).velocity
      = ⟨obj.velocity.x + (obj.forces.map (fun f => f.force.x / obj.mass * dt)).sum,
         obj.velocity.y + (obj.forces.map (fun f => f.force.y / obj.mass * dt)).sum,
         obj.velocity.z + (obj.forces.map (fun f => f.force.z / obj.mass * dt)).sum⟩ ∧
    (obj.updateVelocity dt).forces = [] ∧
    (obj.updateVelocity dt).position = obj.position ∧
    (obj.updateVelocity dt).rotation = obj.rotation ∧
    (obj.updateVelocity dt).rotationalVelocity = obj.rotationalVelocity ∧
    (obj.updateVelocity dt).mass = obj.mass ∧
    (obj.updateVelocity dt).elasticity = obj.elasticity := by
  refine ⟨?_, rfl, rfl, rfl, rfl, rfl, rfl⟩
  simp only [GameObject.updateVelocity]
  exact foldl_force_eq obj.forces obj.mass dt obj.velocity

end Velocity

/-! ### The step: what a body's turn keeps -/

section StepFrame
variable {K : Type} [LinearOrderedField K]

/-- Replacing an entry by one with the same image leaves the mapped list unchanged. -/
theorem map_set_same {α β : Type} (f : α → β) (l : List α) (i : Nat) (x a : α)
    (h : l[i]? = some a) (hf : f x = f a) : (l.set i x).map f = l.map f := by
  apply List.ext_getElem?
  intro k
  by_cases hk : i = k
  · subst hk
    obtain ⟨hlt, hget⟩ := List.getElem?_eq_some.mp h
    simp [List.getElem?_set, hf, hlt, hget]
  · simp [List.getElem?_set, hk]

/-- `applyForce` does not move the body. -/
theorem applyForce_position (obj : GameObject K) (force : ForceFn K) :
    (obj.applyForce force).position = obj.position := by
  unfold GameObject.applyForce
  split
  · split <;> rfl
  · rfl
  · rfl

/-- Applying a list of forces does not move the body. -/
theorem foldl_applyForce_position (forces : List (ForceFn K)) (obj : GameObject K) :
    (forces.foldl GameObject.applyForce obj).position = obj.position := by
  induction forces generalizing obj with
  | nil => rfl
  | cons f fs ih => simp [List.foldl_cons, ih, applyForce_position]

/-- `constrainCollisions` does not move `obj1`. -/
theorem constrainCollisions_position_fst (L : Three K) (vel : Vector3 K) (objRot : Euler K)
    (obj1 obj2 : GameObject K) :
    (constrainCollisions L vel objRot obj1 obj2).2.1.position = obj1.position := by
  simp only [constrainCollisions]
  cases (narrowPhase L vel objRot obj1 obj2).contactPoint with
  | none => rfl
  | some contactPoint => exact applyForce_position _ _

/-- `constrainCollisions` does not move `obj2`. -/
theorem constrainCollisions_position_snd (L : Three K) (vel : Vector3 K) (objRot : Euler K)
    (obj1 obj2 : GameObject K) :
    (constrainCollisions L vel objRot obj1 obj2).2.2.position = obj2.position := by
  simp only [constrainCollisions]
  cases (narrowPhase L vel objRot obj1 obj2).contactPoint with
  | none => rfl
  | some contactPoint => exact applyForce_position _ _

/-- One pair test moves no body of the registry. -/
theorem collideWith_positions (L : Three K) (i j : Nat)
    (st : List (GameObject K) × Vector3 K × Euler K) :
    (collideWith L i st j).1.map GameObject.position = st.1.map GameObject.position := by
  unfold collideWith
  split
  · rfl
  · rename_i hij
    split
    · rename_i obj1 obj2 h1 h2
      dsimp only
      split
      · have h2' : (st.1.set i (constrainCollisions L st.2.1 st.2.2 obj1 obj2).2.1)[j]? = some obj2 := by
          rw [List.getElem?_set_ne hij]
          exact h2
        simp only
        rw [map_set_same GameObject.position _ j _ obj2 h2'
              (constrainCollisions_position_snd L _ _ obj1 obj2),
            map_set_same GameObject.position _ i _ obj1 h1
              (constrainCollisions_position_fst L _ _ obj1 obj2)]
      · rfl
    · rfl

/-- One pair test never makes `velVector` longer. -/
theorem collideWith_lengthSq_le (L : Three K) (i j : Nat)
    (st : List (GameObject K) × Vector3 K × Euler K) :
    (collideWith L i st j).2.1.lengthSq ≤ st.2.1.lengthSq := by
  unfold collideWith
  split
  · exact le_refl _
  · split
    · dsimp only
      split
      · split
        · rename_i h
          exact le_of_lt h
        · exact le_refl _
      · exact le_refl _
    · exact le_refl _

/-- The loop over `j` moves no body and never makes `velVector` longer. -/
theorem foldl_collideWith (L : Three K) (i : Nat) (js : List Nat)
    (st : List (GameObject K) × Vector3 K × Euler K) :
    (js.foldl (collideWith L i) st).1.map GameObject.position = st.1.map GameObject.position ∧
    (js.foldl (collideWith L i) st).2.1.lengthSq ≤ st.2.1.lengthSq := by
  induction js generalizing st with
  | nil => exact ⟨rfl, le_refl _⟩
  | cons j js ih =>
    rw [List.foldl_cons]
    obtain ⟨h1, h2⟩ := ih (collideWith L i st j)
    exact ⟨h1.trans (collideWith_positions L i j st),
      h2.trans (collideWith_lengthSq_le L i j st)⟩

/-- The turn of `objects[i]` before `rotate` and `move`: no body has moved,
and `velVector` is no longer than the velocity at the start of the turn. -/
theorem turnMotion_frame (L : Three K) (ms : K) (params : Params K)
    (objects : List (GameObject K)) (i : Nat) (obj1 : GameObject K)
    (h : objects[i]? = some obj1) :
    (turnMotion L ms params objects i obj1).1.map GameObject.position
      = objects.map GameObject.position ∧
    (turnMotion L ms params objects i obj1).2.1.lengthSq ≤ obj1.velocity.lengthSq := by
  unfold turnMotion
  split
  · obtain ⟨h1, h2⟩ := foldl_collideWith L i (List.range objects.length)
      (objects.set i
        (GameObject.updateVelocity
          (match params.worldForces with
            | some worldForces => worldForces.foldl GameObject.applyForce obj1
            | none => obj1) ms), obj1.velocity, obj1.rotationalVelocity)
    refine ⟨h1.trans ?_, h2⟩
    apply map_set_same GameObject.position objects i _ obj1 h
    show (match params.worldForces with
            | some worldForces => worldForces.foldl GameObject.applyForce obj1
            | none => obj1).position = obj1.position
    split
    · exact foldl_applyForce_position _ _
    · rfl
  · exact ⟨rfl, le_refl _⟩

/-- C10: in `updatePhysics`, the turn of the body `objects[i]` moves it by a
displacement (the vector passed to `move`) whose squared length is at most
the squared length of the body's velocity at the start of its turn, whatever
`constrainCollisions` returned for the tested pairs. -/
theorem bodyTurn_motion_le (L : Three K) (ms : K) (params : Params K)
    (objects : List (GameObject K)) (i : Nat) (obj1 : GameObject K)
    (h : objects[i]? = some obj1) :
    ∃ d : Vector3 K,
      d = (turnMotion L ms params objects i obj1).2.1 ∧
      ((bodyTurn L ms params objects i)[i]?).map GameObject.position
        = some (obj1.position.add d) ∧
      d.lengthSq ≤ obj1.velocity.lengthSq := by
  obtain ⟨hpos, hle⟩ := turnMotion_frame L ms params objects i obj1 h
  refine ⟨_, rfl, ?_, hle⟩
  have hget : ((turnMotion L ms params objects i obj1).1[i]?).map GameObject.position
      = some obj1.position := by
    rw [← List.getElem?_map, hpos, List.getElem?_map, h]
    rfl
  cases hr : (turnMotion L ms params objects i obj1).1[i]? with
  | none => rw [hr] at hget; cases hget
  | some o =>
    rw [hr] at hget
    have ho : o.position = obj1.position := by simpa using hget
    obtain ⟨hlt, _⟩ := List.getElem?_eq_some.mp hr
    simp only [bodyTurn, h, hr]
    rw [List.getElem?_set_self hlt]
    simp [GameObject.move, GameObject.rotate, ho]

end StepFrame

/-- C6, at the ball `pushedBall` (mass 2, one queued force `(4, 0, 0)`) and
`dt = 1/1000`: the velocity becomes `(2/1000, 0, 0)`. -/
theorem updateVelocity_spec_witness :
    (pushedBall : GameObject ℚ).mass ≠ 0 ∧
    ((pushedBall : GameObject ℚ).updateVelocity (1 / 1000)).velocity = ⟨2 / 1000, 0, 0⟩ :=
  ⟨by norm_num [pushedBall],
   by rw [(updateVelocity_spec (pushedBall : GameObject ℚ) (1 / 1000)
        (by norm_num [pushedBall])).1]
      norm_num [pushedBall]⟩

/-! ### Gravity on a single body -/

section Gravity
variable {K : Type} [LinearOrderedField K]

/-- `updatePhysics` on a registry of one active body. -/
theorem updatePhysics_single (L : Three K) (obj : GameObject K) (ms : K) (params : Params K)
    (h : obj.needsUpdate = true) :
    updatePhysics L [obj] ms params =
      [(((match params.worldForces with
          | some worldForces => worldForces.foldl GameObject.applyForce obj
          | none => obj).updateVelocity (ms * (1 / 1000))).rotate obj.rotationalVelocity).move
            obj.velocity] := by
  simp [updatePhysics, bodyTurn, turnMotion, h, List.range_succ, collideWith]

/-- One tick under gravity of a single active body with an empty queue. -/
theorem gravity_step (L : Three K) (obj : GameObject K) (ms : K)
    (hact : obj.needsUpdate = true) (hm : 0 < obj.mass) (hq : obj.forces = []) :
    ∃ obj', updatePhysics L [obj] ms ⟨some [gravity]⟩ = [obj'] ∧
      obj'.needsUpdate = true ∧ obj'.mass = obj.mass ∧ obj'.forces = [] ∧
      obj'.velocity
        = ⟨obj.velocity.x, obj.velocity.y + -(98 / 10) * ms * (1 / 1000), obj.velocity.z⟩ := by
  refine ⟨_, updatePhysics_single L obj ms _ hact, ?_, ?_, ?_, ?_⟩
  · simp [GameObject.move, GameObject.rotate, GameObject.updateVelocity, GameObject.applyForce,
      gravity, hact]
  · simp [GameObject.move, GameObject.rotate, GameObject.updateVelocity, GameObject.applyForce,
      gravity, hact]
  · simp [GameObject.move, GameObject.rotate, GameObject.updateVelocity, GameObject.applyForce,
      gravity, hact]
  · have hm' : obj.mass ≠ 0 := ne_of_gt hm
    simp [GameObject.move, GameObject.rotate, GameObject.updateVelocity, GameObject.applyForce,
      gravity, hact, hq]
    field_simp
    ring

/-- C9 (amended): for a registry holding a single active body of mass
`m > 0` whose pending-force queue is empty, and `worldForces` holding only
the gravity source, after `n` calls of `updatePhysics(objects, ms, ...)` the
registry still holds one body and its velocity is
`v0 + n * (0, -9.8 * ms * 0.001, 0)`, whatever `m` is. -/
theorem gravity_velocity_after (L : Three K) (obj : GameObject K) (ms : K) (n : Nat)
    (hact : obj.needsUpdate = true) (hm : 0 < obj.mass) (hq : obj.forces = []) :
    ∃ obj', (fun objects => updatePhysics L objects ms ⟨some [gravity]⟩)^[n] [obj] = [obj'] ∧
      obj'.needsUpdate = true ∧ obj'.mass = obj.mass ∧ obj'.forces = [] ∧
      obj'.velocity
        = ⟨obj.velocity.x, obj.velocity.y + n * (-(98 / 10) * ms * (1 / 1000)),
            obj.velocity.z⟩ := by
  induction n with
  | zero => exact ⟨obj, rfl, hact, rfl, hq, by simp⟩
  | succ n ih =>
    obtain ⟨o, ho, h1, h2, h3, h4⟩ := ih
    obtain ⟨o', ho', h1', h2', h3', h4'⟩ := gravity_step L o ms h1 (h2 ▸ hm) h3
    refine ⟨o', ?_, h1', h2'.trans h2, h3', ?_⟩
    · rw [Function.iterate_succ_apply', ho]
      exact ho'
    · rw [h4', h4]
      simp only [Vector3.mk.injEq, true_and, and_true]
      push_cast
      ring

/-- C9 (amended), at the ball `freeBall` (mass 2, empty queue), `ms = 1`
and three ticks. -/
theorem gravity_velocity_after_witness :
    (freeBall : GameObject ℝ).needsUpdate = true ∧ 0 < (freeBall : GameObject ℝ).mass ∧
    (freeBall : GameObject ℝ).forces = [] ∧
    ∃ obj', (fun objects => updatePhysics three objects 1 ⟨some [gravity]⟩)^[3] [freeBall]
        = [obj'] ∧
      obj'.needsUpdate = true ∧ obj'.mass = (freeBall : GameObject ℝ).mass ∧ obj'.forces = [] ∧
      obj'.velocity
        = ⟨(freeBall : GameObject ℝ).velocity.x,
           (freeBall : GameObject ℝ).velocity.y + (3 : ℕ) * (-(98 / 10) * 1 * (1 / 1000)),
           (freeBall : GameObject ℝ).velocity.z⟩ :=
  ⟨rfl, by norm_num [freeBall, pushedBall], rfl,
   gravity_velocity_after three freeBall 1 3 rfl (by norm_num [freeBall, pushedBall]) rfl⟩

/-- C9, as stated, fails for a body with a queued force: the ball
`pushedBall` (mass 2, velocity 0, the force `(4, 0, 0)` queued) has velocity
`(2, -9.8, 0)` after one call with `ms = 1000`, not `(0, -9.8, 0)`. -/
theorem gravity_velocity_queued_counterexample :
    (pushedBall : GameObject ℝ).needsUpdate = true ∧ 0 < (pushedBall : GameObject ℝ).mass ∧
    (updatePhysics three [pushedBall] 1000 ⟨some [gravity]⟩).map GameObject.velocity
      = [⟨2, -(98 / 10), 0⟩] ∧
    (⟨2, -(98 / 10), 0⟩ : Vector3 ℝ)
      ≠ ⟨(pushedBall : GameObject ℝ).velocity.x,
         (pushedBall : GameObject ℝ).velocity.y + (1 : ℕ) * (-(98 / 10) * 1000 * (1 / 1000)),
         (pushedBall : GameObject ℝ).velocity.z⟩ := by
  refine ⟨rfl, by norm_num [pushedBall], ?_, ?_⟩
  · rw [updatePhysics_single three pushedBall 1000 _ rfl]
    simp [GameObject.move, GameObject.rotate, GameObject.updateVelocity, GameObject.applyForce,
      gravity, pushedBall]
    norm_num
  · simp [pushedBall]

end Gravity

/-! ### Broad phase -/

section Broad
variable {K : Type} [LinearOrderedField K]

/-- Two spheres of non-negative radii that share a point intersect. -/
theorem intersectsSphere_of_common_point (s t : Sphere K) (p : Vector3 K)
    (hs : 0 ≤ s.radius) (ht : 0 ≤ t.radius)
    (h1 : s.containsPoint p = true) (h2 : t.containsPoint p = true) :
    s.intersectsSphere t = true := by
  simp only [Sphere.containsPoint, Sphere.intersectsSphere, decide_eq_true_eq,
    Vector3.distanceToSquared] at *
  set ux := p.x - s.center.x
  set uy := p.y - s.center.y
  set uz := p.z - s.center.z
  set wx := p.x - t.center.x
  set wy := p.y - t.center.y
  set wz := p.z - t.center.z
  have hcs : (ux * wx + uy * wy + uz * wz) ^ 2 ≤ (s.radius * t.radius) ^ 2 := by
    have h3 : (ux * wx + uy * wy + uz * wz) ^ 2
        ≤ (ux * ux + uy * uy + uz * uz) * (wx * wx + wy * wy + wz * wz) := by
      nlinarith [sq_nonneg (ux * wy - uy * wx), sq_nonneg (ux * wz - uz * wx),
        sq_nonneg (uy * wz - uz * wy)]
    have h4 : (ux * ux + uy * uy + uz * uz) * (wx * wx + wy * wy + wz * wz)
        ≤ (s.radius * s.radius) * (t.radius * t.radius) :=
      mul_le_mul h1 h2
        (add_nonneg (add_nonneg (mul_self_nonneg _) (mul_self_nonneg _)) (mul_self_nonneg _))
        (mul_self_nonneg _)
    calc (ux * wx + uy * wy + uz * wz) ^ 2 ≤ _ := h3
      _ ≤ _ := h4
      _ = (s.radius * t.radius) ^ 2 := by ring
  obtain ⟨hlo, hhi⟩ := abs_le_of_sq_le_sq' hcs (mul_nonneg hs ht)
  have hx : t.center.x - s.center.x = ux - wx := by simp only [ux, wx]; ring
  have hy : t.center.y - s.center.y = uy - wy := by simp only [uy, wy]; ring
  have hz : t.center.z - s.center.z = uz - wz := by simp only [uz, wz]; ring
  rw [hx, hy, hz]
  nlinarith

/-- C7 (amended): for a body `A` whose world-space vertices all lie within
its bounding sphere (centre `A.position`, radius `r`) and every displacement
`d`, the sphere that `updatePhysics` tests (centre `A.position + d`, radius
`r`) contains the end-of-step position `v + d` of every world-space vertex
`v` of `A`; consequently no pair for which the end-of-step position of a
vertex lies within the other body's bounding sphere is rejected by the sphere
test (radii non-negative). -/
theorem sphere1_contains_end_of_step (L : Three K) (A : GameObject K) (d v : Vector3 K)
    (hall : ∀ w ∈ worldVertices L A, (sphere2 A).containsPoint w = true)
    (hv : v ∈ worldVertices L A) :
    (sphere1 A d).containsPoint (v.add d) = true ∧
    ∀ B : GameObject K, 0 ≤ A.geoBound.boundingSphere.radius →
      0 ≤ B.geoBound.boundingSphere.radius →
      (sphere2 B).containsPoint (v.add d) = true →
      (sphere1 A d).intersectsSphere (sphere2 B) = true := by
  have h1 : (sphere1 A d).containsPoint (v.add d) = true := by
    have h := hall v hv
    simp only [Sphere.containsPoint, sphere1, sphere2, decide_eq_true_eq,
      Vector3.distanceToSquared, Vector3.add] at *
    have e1 : v.x + d.x - (A.position.x + d.x) = v.x - A.position.x := by ring
    have e2 : v.y + d.y - (A.position.y + d.y) = v.y - A.position.y := by ring
    have e3 : v.z + d.z - (A.position.z + d.z) = v.z - A.position.z := by ring
    rw [e1, e2, e3]
    exact h
  refine ⟨h1, ?_⟩
  intro B hA hB h2
  exact intersectsSphere_of_common_point (sphere1 A d) (sphere2 B) (v.add d) hA hB h1 h2

end Broad

/-! ### The library at rotation zero -/

/-- Rotating by the zero Euler angles is the identity. -/
theorem three_applyEuler_zero (v : Vector3 ℝ) : three.applyEuler v ⟨0, 0, 0⟩ = v := by
  simp [three, Quaternion.setFromEuler, Vector3.applyQuaternion]

/-- The only world-space vertex of `probe` is the origin. -/
theorem worldVertices_probe : worldVertices three (probe : GameObject ℝ) = [⟨0, 0, 0⟩] := by
  simp [worldVertices, probe, bodyOf, pointGeometry, three_applyEuler_zero, Vector3.add]

/-- C7 (amended), at the body `probe` (one vertex at the origin, bounding
radius 1) displaced by `(10, 0, 0)`. -/
theorem sphere1_contains_end_of_step_witness :
    (∀ w ∈ worldVertices three (probe : GameObject ℝ), (sphere2 probe).containsPoint w = true) ∧
    (⟨0, 0, 0⟩ : Vector3 ℝ) ∈ worldVertices three (probe : GameObject ℝ) ∧
    (sphere1 (probe : GameObject ℝ) ⟨10, 0, 0⟩).containsPoint
      (Vector3.add ⟨0, 0, 0⟩ ⟨10, 0, 0⟩) = true :=
  have hall : ∀ w ∈ worldVertices three (probe : GameObject ℝ),
      (sphere2 probe).containsPoint w = true := by
    intro w hw
    rw [worldVertices_probe] at hw
    simp only [List.mem_singleton] at hw
    subst hw
    simp [Sphere.containsPoint, sphere2, probe, bodyOf, pointGeometry,
      Vector3.distanceToSquared]
  have hv : (⟨0, 0, 0⟩ : Vector3 ℝ) ∈ worldVertices three (probe : GameObject ℝ) := by
    rw [worldVertices_probe]
    exact List.mem_singleton.mpr rfl
  ⟨hall, hv, (sphere1_contains_end_of_step three probe ⟨10, 0, 0⟩ ⟨0, 0, 0⟩ hall hv).1⟩

/-- C7, as stated, fails: the body `probe` (one vertex at the origin, inside
its bounding sphere of radius 1) is displaced by `d = (10, 0, 0)`; at
`s = 1/2` the swept vertex `v + s·d = (5, 0, 0)` is not in the tested sphere
(centre `(10, 0, 0)`, radius 1), it is the centre of the bounding sphere of
`farTarget`, and yet the sphere test rejects the pair. -/
theorem sphere1_misses_swept_vertex :
    (∀ w ∈ worldVertices three (probe : GameObject ℝ), (sphere2 probe).containsPoint w = true) ∧
    (⟨0, 0, 0⟩ : Vector3 ℝ) ∈ worldVertices three (probe : GameObject ℝ) ∧
    (0 : ℝ) ≤ 1 / 2 ∧ (1 / 2 : ℝ) ≤ 1 ∧
    (sphere1 (probe : GameObject ℝ) ⟨10, 0, 0⟩).containsPoint
      (Vector3.add ⟨0, 0, 0⟩ (Vector3.multiplyScalar ⟨10, 0, 0⟩ (1 / 2))) = false ∧
    (sphere2 (farTarget : GameObject ℝ)).containsPoint
      (Vector3.add ⟨0, 0, 0⟩ (Vector3.multiplyScalar ⟨10, 0, 0⟩ (1 / 2))) = true ∧
    (sphere1 (probe : GameObject ℝ) ⟨10, 0, 0⟩).intersectsSphere (sphere2 farTarget) = false := by
  refine ⟨?_, ?_, by norm_num, by norm_num, ?_, ?_, ?_⟩
  · intro w hw
    rw [worldVertices_probe] at hw
    simp only [List.mem_singleton] at hw
    subst hw
    simp [Sphere.containsPoint, sphere2, probe, bodyOf, pointGeometry,
      Vector3.distanceToSquared]
  · rw [worldVertices_probe]
    exact List.mem_singleton.mpr rfl
  · simp [Sphere.containsPoint, sphere1, probe, bodyOf, pointGeometry,
      Vector3.distanceToSquared, Vector3.add, Vector3.multiplyScalar]
    norm_num
  · simp [Sphere.containsPoint, sphere2, farTarget, bodyOf, noGeometry,
      Vector3.distanceToSquared, Vector3.add, Vector3.multiplyScalar]
    norm_num
  · simp [Sphere.intersectsSphere, sphere1, sphere2, probe, farTarget, bodyOf, pointGeometry,
      noGeometry, Vector3.distanceToSquared, Vector3.add]
    norm_num

/-! ### The narrow phase on concrete bodies -/

/-- The angle of a non-zero vector to itself is zero. -/
theorem three_angleTo_self (v : Vector3 ℝ) (hv : v.lengthSq ≠ 0) : three.angleTo v v = 0 := by
  have hnn : 0 ≤ v.lengthSq := by
    unfold Vector3.lengthSq
    nlinarith [mul_self_nonneg v.x, mul_self_nonneg v.y, mul_self_nonneg v.z]
  have hdot : v.dot v = v.lengthSq := rfl
  simp only [three, Real.sqrt_mul_self hnn, if_neg hv, hdot, div_self hv, clamp]
  norm_num

/-- The vertex `c` of the triangle of `plate` passes `isInsideTriangle`. -/
theorem isInsideTriangle_plate_c :
    isInsideTriangle three ⟨0, 1, 0⟩ ⟨0, 0, 0⟩ ⟨1, 0, 0⟩ ⟨0, 1, 0⟩ = true := by
  have h1 : three.angleTo (⟨0, 1, 0⟩ : Vector3 ℝ) ⟨0, 1, 0⟩ = 0 :=
    three_angleTo_self _ (by norm_num [Vector3.lengthSq])
  have h2 : three.angleTo (⟨-1, 1, 0⟩ : Vector3 ℝ) ⟨-1, 1, 0⟩ = 0 :=
    three_angleTo_self _ (by norm_num [Vector3.lengthSq])
  simp only [isInsideTriangle, Vector3.sub]
  norm_num [h1, h2]

/-- The loops of `constrainCollisions` for `onePoint` falling on `plate`:
the vertex hits the face at time `1/4`. -/
theorem narrowPhase_onePoint :
    narrowPhase three ⟨0, 0, -1⟩ ⟨0, 0, 0⟩ (onePoint : GameObject ℝ) plate
      = { collisionTime := 2, normalForce := ⟨0, 0, -1⟩, contactPoint := some ⟨0, 1, 0⟩,
          constrainedVelocity := ⟨0, 0, -(1 / 4)⟩ } := by
  simp [narrowPhase, onePoint, plate, bodyOf, pointGeometry, triangleGeometry, forwardVertex,
    forwardFace, reverseVertex, three_applyEuler_zero, Euler.lengthSq, Vector3.add, Vector3.dot,
    timeOfIntersectPlaneLine, Vector3.sub, Vector3.multiplyScalar]
  norm_num [isInsideTriangle_plate_c]

/-- The loops of `constrainCollisions` for `twoPoints` falling on `plate`:
the second vertex, which hits at time `1/2`, replaces the hit of the first. -/
theorem narrowPhase_twoPoints :
    narrowPhase three ⟨0, 0, -1⟩ ⟨0, 0, 0⟩ (twoPoints : GameObject ℝ) plate
      = { collisionTime := 2, normalForce := ⟨0, 0, -1⟩, contactPoint := some ⟨0, 1, 0⟩,
          constrainedVelocity := ⟨0, 0, -(1 / 2)⟩ } := by
  simp [narrowPhase, twoPoints, plate, bodyOf, triangleGeometry, forwardVertex,
    forwardFace, reverseVertex, three_applyEuler_zero, Euler.lengthSq, Vector3.add, Vector3.dot,
    timeOfIntersectPlaneLine, Vector3.sub, Vector3.multiplyScalar]
  norm_num [isInsideTriangle_plate_c]

/-- The loops of `constrainCollisions` for `risingPlate` rising to
`hangingPoint`: the vertex meets the face at time `1/4`, and the constrained
velocity is `3/4` of the velocity. -/
theorem narrowPhase_risingPlate :
    narrowPhase three ⟨0, 0, 1⟩ ⟨0, 0, 0⟩ (risingPlate : GameObject ℝ) hangingPoint
      = { collisionTime := 2, normalForce := ⟨0, 0, -1⟩, contactPoint := some ⟨0, 1, 0⟩,
          constrainedVelocity := ⟨0, 0, 3 / 4⟩ } := by
  simp [narrowPhase, risingPlate, hangingPoint, bodyOf, pointGeometry, triangleGeometry,
    forwardVertex, forwardFace, reverseVertex, reverseFace, three_applyEuler_zero, Euler.lengthSq,
    Vector3.add, Vector3.dot, timeOfIntersectPlaneLine, Vector3.sub, Vector3.multiplyScalar]
  norm_num [isInsideTriangle_plate_c]

/-- The first component of what `constrainCollisions` returns is the
`constrainedVelocity` of its loops. -/
theorem constrainCollisions_velocity {K : Type} [LinearOrderedField K] (L : Three K)
    (vel : Vector3 K) (objRot : Euler K) (obj1 obj2 : GameObject K) :
    (constrainCollisions L vel objRot obj1 obj2).1.1
      = (narrowPhase L vel objRot obj1 obj2).constrainedVelocity := by
  simp only [constrainCollisions]
  cases (narrowPhase L vel objRot obj1 obj2).contactPoint <;> rfl

/-- C2, on the code: the body `twoPoints` (vertices `(0, 1, 1/4)` and
`(0, 1, 1/2)`) falls by `(0, 0, -1)` on the triangle `plate` in the plane
`z = 0`. The first vertex alone gives a hit at time `1/4` (constrained
velocity `(0, 0, -1/4)`); with both vertices `constrainCollisions` returns
`(0, 0, -1/2)`, the velocity of the later hit at the larger time `1/2`,
because `collisionTime` is still `2` after the loops. -/
theorem constrainCollisions_keeps_last_hit :
    (constrainCollisions three ⟨0, 0, -1⟩ ⟨0, 0, 0⟩ (onePoint : GameObject ℝ) plate).1.1
      = ⟨0, 0, -(1 / 4)⟩ ∧
    (constrainCollisions three ⟨0, 0, -1⟩ ⟨0, 0, 0⟩ (twoPoints : GameObject ℝ) plate).1.1
      = ⟨0, 0, -(1 / 2)⟩ ∧
    (narrowPhase three ⟨0, 0, -1⟩ ⟨0, 0, 0⟩ (twoPoints : GameObject ℝ) plate).collisionTime
      = 2 := by
  rw [constrainCollisions_velocity, constrainCollisions_velocity, narrowPhase_onePoint,
    narrowPhase_twoPoints]
  exact ⟨rfl, rfl, rfl⟩

/-- C3, on the code: the triangle `risingPlate` (outward normal `(0, 0, 1)`,
not rotating) rises by `(0, 0, 1)` towards the resting vertex
`(0, 1, 1/4)` of `hangingPoint`, which it meets at time `1/4`: the only hit.
`constrainCollisions` returns the velocity `(0, 0, 3/4)`, and after that
displacement the vertex is at signed distance `-1/2` from the face's plane
along the face's outward normal. -/
theorem constrainCollisions_reverse_penetrates :
    (constrainCollisions three ⟨0, 0, 1⟩ ⟨0, 0, 0⟩ (risingPlate : GameObject ℝ) hangingPoint).1.1
      = ⟨0, 0, 3 / 4⟩ ∧
    Vector3.dot (⟨0, 0, 1⟩ : Vector3 ℝ)
      (Vector3.sub ⟨0, 1, 1 / 4⟩
        (Vector3.add ⟨0, 0, 0⟩
          (constrainCollisions three ⟨0, 0, 1⟩ ⟨0, 0, 0⟩
            (risingPlate : GameObject ℝ) hangingPoint).1.1)) = -(1 / 2) := by
  rw [constrainCollisions_velocity, narrowPhase_risingPlate]
  refine ⟨rfl, ?_⟩
  norm_num [Vector3.dot, Vector3.sub, Vector3.add]

/-- C10, at the registry of `twoPoints` falling on `plate`, for the turn of
`twoPoints`. -/
theorem bodyTurn_motion_le_witness :
    ([twoPoints, plate] : List (GameObject ℝ))[0]? = some twoPoints ∧
    ∃ d : Vector3 ℝ,
      d = (turnMotion three (1 / 1000) ⟨some [gravity]⟩ [twoPoints, plate] 0 twoPoints).2.1 ∧
      ((bodyTurn three (1 / 1000) ⟨some [gravity]⟩ [twoPoints, plate] 0)[0]?).map
          GameObject.position
        = some ((twoPoints : GameObject ℝ).position.add d) ∧
      d.lengthSq ≤ (twoPoints : GameObject ℝ).velocity.lengthSq :=
  ⟨rfl, bodyTurn_motion_le three (1 / 1000) ⟨some [gravity]⟩ [twoPoints, plate] 0 twoPoints rfl⟩

/-! ### Angles over the real numbers -/

section Angles

/-- A squared length is non-negative. -/
theorem lengthSq_nonneg (v : Vector3 ℝ) : 0 ≤ v.lengthSq := by
  unfold Vector3.lengthSq
  nlinarith [mul_self_nonneg v.x, mul_self_nonneg v.y, mul_self_nonneg v.z]

/-- The Cauchy-Schwarz inequality for `dot`. -/
theorem dot_sq_le (u v : Vector3 ℝ) : (u.dot v) ^ 2 ≤ u.lengthSq * v.lengthSq := by
  unfold Vector3.dot Vector3.lengthSq
  nlinarith [sq_nonneg (u.x * v.y - u.y * v.x), sq_nonneg (u.x * v.z - u.z * v.x),
    sq_nonneg (u.y * v.z - u.z * v.y)]

/-- The cosine of `angleTo`, times the product of the lengths, is the dot product. -/
theorem three_cos_angleTo (u v : Vector3 ℝ) :
    Real.cos (three.angleTo u v) * Real.sqrt (u.lengthSq * v.lengthSq) = u.dot v := by
  have hcs := dot_sq_le u v
  by_cases h : Real.sqrt (u.lengthSq * v.lengthSq) = 0
  · have hP : u.lengthSq * v.lengthSq ≤ 0 := Real.sqrt_eq_zero'.mp h
    have hd : (u.dot v) ^ 2 ≤ 0 := hcs.trans hP
    have hd0 : u.dot v = 0 := by
      have := le_antisymm hd (sq_nonneg _)
      exact pow_eq_zero_iff (by norm_num) |>.mp this
    simp [h, hd0]
  · have hs : 0 < Real.sqrt (u.lengthSq * v.lengthSq) :=
      lt_of_le_of_ne (Real.sqrt_nonneg _) (Ne.symm h)
    have habs : |u.dot v| ≤ Real.sqrt (u.lengthSq * v.lengthSq) := Real.abs_le_sqrt hcs
    obtain ⟨hlo, hhi⟩ := abs_le.mp habs
    have h1 : -1 ≤ u.dot v / Real.sqrt (u.lengthSq * v.lengthSq) := by
      rw [le_div_iff₀ hs]
      linarith
    have h2 : u.dot v / Real.sqrt (u.lengthSq * v.lengthSq) ≤ 1 := by
      rw [div_le_one hs]
      exact hhi
    have hang : three.angleTo u v
        = Real.arccos (u.dot v / Real.sqrt (u.lengthSq * v.lengthSq)) := by
      simp only [three, if_neg h, clamp, min_eq_right h2, max_eq_right h1]
    rw [hang, Real.cos_arccos h1 h2, div_mul_cancel₀ _ h]

/-- The sine of `angleTo`, times the product of the lengths, is the square
root of the Gram determinant. -/
theorem three_sin_angleTo (u v : Vector3 ℝ) :
    Real.sin (three.angleTo u v) * Real.sqrt (u.lengthSq * v.lengthSq)
      = Real.sqrt (u.lengthSq * v.lengthSq - (u.dot v) ^ 2) := by
  have hcs := dot_sq_le u v
  by_cases h : Real.sqrt (u.lengthSq * v.lengthSq) = 0
  · have hP : u.lengthSq * v.lengthSq ≤ 0 := Real.sqrt_eq_zero'.mp h
    have hneg : u.lengthSq * v.lengthSq - (u.dot v) ^ 2 ≤ 0 := by
      nlinarith [sq_nonneg (u.dot v)]
    rw [h, mul_zero, Real.sqrt_eq_zero_of_nonpos hneg]
  · have hs : 0 < Real.sqrt (u.lengthSq * v.lengthSq) :=
      lt_of_le_of_ne (Real.sqrt_nonneg _) (Ne.symm h)
    have hP : 0 ≤ u.lengthSq * v.lengthSq := mul_nonneg (lengthSq_nonneg u) (lengthSq_nonneg v)
    have habs : |u.dot v| ≤ Real.sqrt (u.lengthSq * v.lengthSq) := Real.abs_le_sqrt hcs
    obtain ⟨hlo, hhi⟩ := abs_le.mp habs
    have h1 : -1 ≤ u.dot v / Real.sqrt (u.lengthSq * v.lengthSq) := by
      rw [le_div_iff₀ hs]
      linarith
    have h2 : u.dot v / Real.sqrt (u.lengthSq * v.lengthSq) ≤ 1 := by
      rw [div_le_one hs]
      exact hhi
    have hang : three.angleTo u v
        = Real.arccos (u.dot v / Real.sqrt (u.lengthSq * v.lengthSq)) := by
      simp only [three, if_neg h, clamp, min_eq_right h2, max_eq_right h1]
    have hsq : Real.sqrt (u.lengthSq * v.lengthSq) ^ 2 = u.lengthSq * v.lengthSq :=
      Real.sq_sqrt hP
    have h3 : 0 ≤ 1 - (u.dot v / Real.sqrt (u.lengthSq * v.lengthSq)) ^ 2 := by
      have : (u.dot v / Real.sqrt (u.lengthSq * v.lengthSq)) ^ 2 ≤ 1 := by
        rw [sq_le_one_iff_abs_le_one]
        exact abs_le.mpr ⟨h1, h2⟩
      linarith
    rw [hang, Real.sin_arccos]
    nth_rewrite 2 [← Real.sqrt_sq (le_of_lt hs)]
    rw [← Real.sqrt_mul h3]
    congr 1
    rw [div_pow, hsq]
    have hPne : u.lengthSq * v.lengthSq ≠ 0 := ne_of_gt (Real.sqrt_pos.mp hs)
    field_simp

/-- `angleTo` is at least `0`. -/
theorem three_angleTo_nonneg (u v : Vector3 ℝ) : 0 ≤ three.angleTo u v := by
  simp only [three]
  split
  · positivity
  · exact Real.arccos_nonneg _

/-- `angleTo` is at most `π`. -/
theorem three_angleTo_le_pi (u v : Vector3 ℝ) : three.angleTo u v ≤ Real.pi := by
  simp only [three]
  split
  · linarith [Real.pi_pos]
  · exact Real.arccos_le_pi _

/-- The Gram determinant of two vectors is the squared length of their cross product. -/
theorem gram_eq_cross (u w : Vector3 ℝ) : gram u w = (u.cross w).lengthSq := by
  simp only [gram, Vector3.cross, Vector3.lengthSq, Vector3.dot]
  ring

/-- The Gram determinant is non-negative. -/
theorem gram_nonneg (u w : Vector3 ℝ) : 0 ≤ gram u w := by
  rw [gram_eq_cross]
  exact lengthSq_nonneg _

/-- The trigonometry of `isInsideTriangle`: for `z = β u + γ w`, with
`θ1 = angleTo(u, z)`, `θ2 = angleTo(w, z)` and `θ = angleTo(u, w)`, the
cosine and the sine of `θ1 + θ2`, scaled by `|u| |w| |z|²`. -/
theorem angle_sum_formulas (u w z : Vector3 ℝ) (β γ : ℝ)
    (hz : z = (u.multiplyScalar β).add (w.multiplyScalar γ)) :
    (Real.cos (three.angleTo u z + three.angleTo w z) - Real.cos (three.angleTo u w))
        * (Real.sqrt u.lengthSq * Real.sqrt w.lengthSq * z.lengthSq)
      = (β * γ - |β| * |γ|) * gram u w ∧
    Real.sin (three.angleTo u z + three.angleTo w z)
        * (Real.sqrt u.lengthSq * Real.sqrt w.lengthSq * z.lengthSq)
      = Real.sqrt (gram u w) * (|γ| * w.dot z + |β| * u.dot z) := by
  have hG := gram_nonneg u w
  have c1 := three_cos_angleTo u z
  have s1 := three_sin_angleTo u z
  have c2 := three_cos_angleTo w z
  have s2 := three_sin_angleTo w z
  have c3 := three_cos_angleTo u w
  rw [Real.sqrt_mul (lengthSq_nonneg u)] at c1 s1 c3
  rw [Real.sqrt_mul (lengthSq_nonneg w)] at c2 s2
  have g1 : u.lengthSq * z.lengthSq - (u.dot z) ^ 2 = γ ^ 2 * gram u w := by
    subst hz
    simp only [gram, Vector3.lengthSq, Vector3.dot, Vector3.add, Vector3.multiplyScalar]
    ring
  have g2 : w.lengthSq * z.lengthSq - (w.dot z) ^ 2 = β ^ 2 * gram u w := by
    subst hz
    simp only [gram, Vector3.lengthSq, Vector3.dot, Vector3.add, Vector3.multiplyScalar]
    ring
  have g3 : u.dot z * w.dot z - u.dot w * z.lengthSq = β * γ * gram u w := by
    subst hz
    simp only [gram, Vector3.lengthSq, Vector3.dot, Vector3.add, Vector3.multiplyScalar]
    ring
  rw [g1, Real.sqrt_mul (sq_nonneg γ), Real.sqrt_sq_eq_abs] at s1
  rw [g2, Real.sqrt_mul (sq_nonneg β), Real.sqrt_sq_eq_abs] at s2
  have hZ : Real.sqrt z.lengthSq * Real.sqrt z.lengthSq = z.lengthSq :=
    Real.mul_self_sqrt (lengthSq_nonneg z)
  have hsG : Real.sqrt (gram u w) * Real.sqrt (gram u w) = gram u w := Real.mul_self_sqrt hG
  set A1 := Real.cos (three.angleTo u z)
  set S1 := Real.sin (three.angleTo u z)
  set A2 := Real.cos (three.angleTo w z)
  set S2 := Real.sin (three.angleTo w z)
  set A3 := Real.cos (three.angleTo u w)
  set U := Real.sqrt u.lengthSq
  set W := Real.sqrt w.lengthSq
  set Z := Real.sqrt z.lengthSq
  set sG := Real.sqrt (gram u w)
  rw [Real.cos_add, Real.sin_add, ← hZ]
  constructor
  · have e1 : A1 * A2 * (U * W * (Z * Z)) = u.dot z * w.dot z := by
      rw [← c1, ← c2]; ring
    have e2 : S1 * S2 * (U * W * (Z * Z)) = |β| * |γ| * gram u w := by
      rw [← hsG]
      linear_combination (S2 * (W * Z)) * s1 + (|γ| * sG) * s2
    have e3 : A3 * (U * W * (Z * Z)) = u.dot w * z.lengthSq := by
      rw [← c3, ← hZ]; ring
    linear_combination e1 - e2 - e3 + g3
  · have e1 : S1 * A2 * (U * W * (Z * Z)) = |γ| * sG * w.dot z := by
      rw [← s1, ← c2]; ring
    have e2 : A1 * S2 * (U * W * (Z * Z)) = u.dot z * (|β| * sG) := by
      rw [← c1, ← s2]; ring
    linear_combination e1 + e2

/-- The squared length of `β u + γ w` is positive when `u` and `w` are not
parallel and `β`, `γ` are not both zero. -/
theorem lengthSq_comb_pos (u w z : Vector3 ℝ) (β γ : ℝ)
    (hz : z = (u.multiplyScalar β).add (w.multiplyScalar γ)) (hG : 0 < gram u w)
    (hne : ¬(β = 0 ∧ γ = 0)) : 0 < z.lengthSq := by
  have g1 : u.lengthSq * z.lengthSq = (u.dot z) ^ 2 + γ ^ 2 * gram u w := by
    subst hz
    simp only [gram, Vector3.lengthSq, Vector3.dot, Vector3.add, Vector3.multiplyScalar]
    ring
  have g2 : w.lengthSq * z.lengthSq = (w.dot z) ^ 2 + β ^ 2 * gram u w := by
    subst hz
    simp only [gram, Vector3.lengthSq, Vector3.dot, Vector3.add, Vector3.multiplyScalar]
    ring
  have hzn := lengthSq_nonneg z
  rcases lt_or_eq_of_le hzn with h | h
  · exact h
  · exfalso
    rw [← h, mul_zero] at g1 g2
    have hγ : γ ^ 2 * gram u w ≤ 0 := by nlinarith [sq_nonneg (u.dot z)]
    have hβ : β ^ 2 * gram u w ≤ 0 := by nlinarith [sq_nonneg (w.dot z)]
    have hγ0 : γ = 0 := by
      by_contra hc
      have : 0 < γ ^ 2 * gram u w := mul_pos (by positivity) hG
      linarith
    have hβ0 : β = 0 := by
      by_contra hc
      have : 0 < β ^ 2 * gram u w := mul_pos (by positivity) hG
      linarith
    exact hne ⟨hβ0, hγ0⟩

/-- The scale `|u| |w| |z|²` of `angle_sum_formulas` is positive. -/
theorem angle_scale_pos (u w z : Vector3 ℝ) (hG : 0 < gram u w) (hzp : 0 < z.lengthSq) :
    0 < Real.sqrt u.lengthSq * Real.sqrt w.lengthSq * z.lengthSq := by
  have hu := lengthSq_nonneg u
  have hw := lengthSq_nonneg w
  have hprod : 0 < u.lengthSq * w.lengthSq := by
    have : gram u w = u.lengthSq * w.lengthSq - (u.dot w) ^ 2 := rfl
    nlinarith [sq_nonneg (u.dot w)]
  have hu' : 0 < u.lengthSq := by
    rcases lt_or_eq_of_le hu with h | h
    · exact h
    · rw [← h, zero_mul] at hprod; exact absurd hprod (lt_irrefl _)
  have hw' : 0 < w.lengthSq := by
    rcases lt_or_eq_of_le hw with h | h
    · exact h
    · rw [← h, mul_zero] at hprod; exact absurd hprod (lt_irrefl _)
  exact mul_pos (mul_pos (Real.sqrt_pos.mpr hu') (Real.sqrt_pos.mpr hw')) hzp

/-- Inside the cone of `u` and `w` the angles add up: for `z = β u + γ w`
with `β, γ ≥ 0` not both zero, `angleTo(u, z) + angleTo(w, z) = angleTo(u, w)`. -/
theorem angleTo_cone (u w z : Vector3 ℝ) (β γ : ℝ)
    (hz : z = (u.multiplyScalar β).add (w.multiplyScalar γ)) (hG : 0 < gram u w)
    (hβ : 0 ≤ β) (hγ : 0 ≤ γ) (hne : ¬(β = 0 ∧ γ = 0)) :
    three.angleTo u z + three.angleTo w z = three.angleTo u w := by
  obtain ⟨hcos, hsin⟩ := angle_sum_formulas u w z β γ hz
  have hzp := lengthSq_comb_pos u w z β γ hz hG hne
  have hK := angle_scale_pos u w z hG hzp
  rw [abs_of_nonneg hβ, abs_of_nonneg hγ] at hcos hsin
  have hlz : γ * w.dot z + β * u.dot z = z.lengthSq := by
    subst hz
    simp only [Vector3.lengthSq, Vector3.dot, Vector3.add, Vector3.multiplyScalar]
    ring
  rw [hlz] at hsin
  have hcos' : Real.cos (three.angleTo u z + three.angleTo w z)
      = Real.cos (three.angleTo u w) := by
    have h0 : (Real.cos (three.angleTo u z + three.angleTo w z)
        - Real.cos (three.angleTo u w))
        * (Real.sqrt u.lengthSq * Real.sqrt w.lengthSq * z.lengthSq) = 0 := by
      rw [hcos]; ring
    rcases mul_eq_zero.mp h0 with h | h
    · linarith
    · exact absurd h (ne_of_gt hK)
  have hsin' : 0 < Real.sin (three.angleTo u z + three.angleTo w z) := by
    have hpos : 0 < Real.sqrt (gram u w) * z.lengthSq :=
      mul_pos (Real.sqrt_pos.mpr hG) hzp
    rw [← hsin] at hpos
    by_contra hc
    push_neg at hc
    have := mul_nonpos_of_nonpos_of_nonneg hc (le_of_lt hK)
    linarith
  have h1 := three_angleTo_nonneg u z
  have h2 := three_angleTo_nonneg w z
  have h3 := three_angleTo_le_pi u z
  have h4 := three_angleTo_le_pi w z
  have hlt : three.angleTo u z + three.angleTo w z ≤ Real.pi := by
    by_contra hc
    push_neg at hc
    have hs : 0 ≤ Real.sin (three.angleTo u z + three.angleTo w z - Real.pi) :=
      Real.sin_nonneg_of_nonneg_of_le_pi (by linarith) (by linarith)
    rw [Real.sin_sub_pi] at hs
    linarith
  exact Real.injOn_cos ⟨by linarith, hlt⟩
    ⟨three_angleTo_nonneg u w, three_angleTo_le_pi u w⟩ hcos'

/-- Outside the cone of `u` and `w` the angles exceed: for `z = β u + γ w`
with `β < 0` or `γ < 0`, `angleTo(u, w) < angleTo(u, z) + angleTo(w, z)`. -/
theorem angleTo_outside (u w z : Vector3 ℝ) (β γ : ℝ)
    (hz : z = (u.multiplyScalar β).add (w.multiplyScalar γ)) (hG : 0 < gram u w)
    (hout : β < 0 ∨ γ < 0) :
    three.angleTo u w < three.angleTo u z + three.angleTo w z := by
  obtain ⟨hcos, hsin⟩ := angle_sum_formulas u w z β γ hz
  have hne : ¬(β = 0 ∧ γ = 0) := by
    rintro ⟨hb, hc⟩
    rcases hout with h | h <;> linarith
  have hzp := lengthSq_comb_pos u w z β γ hz hG hne
  have hK := angle_scale_pos u w z hG hzp
  have h1 := three_angleTo_nonneg u z
  have h2 := three_angleTo_nonneg w z
  have h5 := three_angleTo_le_pi u w
  by_cases hprod : β * γ < 0
  · -- the cosine of the sum is smaller
    have habs : |β| * |γ| = -(β * γ) := by
      rw [← abs_mul, abs_of_neg hprod]
    rw [habs] at hcos
    have hneg : (Real.cos (three.angleTo u z + three.angleTo w z)
        - Real.cos (three.angleTo u w))
        * (Real.sqrt u.lengthSq * Real.sqrt w.lengthSq * z.lengthSq) < 0 := by
      rw [hcos]
      nlinarith
    have hlt : Real.cos (three.angleTo u z + three.angleTo w z)
        < Real.cos (three.angleTo u w) := by
      by_contra hc
      push_neg at hc
      have : 0 ≤ (Real.cos (three.angleTo u z + three.angleTo w z)
          - Real.cos (three.angleTo u w))
          * (Real.sqrt u.lengthSq * Real.sqrt w.lengthSq * z.lengthSq) :=
        mul_nonneg (by linarith) (le_of_lt hK)
      linarith
    by_contra hc
    push_neg at hc
    have := Real.cos_le_cos_of_nonneg_of_le_pi (by linarith) h5 hc
    linarith
  · -- both coefficients are non-positive: the sine of the sum is negative
    push_neg at hprod
    have hβ : β ≤ 0 := by
      rcases hout with h | h
      · exact le_of_lt h
      · by_contra hc
        push_neg at hc
        nlinarith
    have hγ : γ ≤ 0 := by
      rcases hout with h | h
      · by_contra hc
        push_neg at hc
        nlinarith
      · exact le_of_lt h
    rw [abs_of_nonpos hβ, abs_of_nonpos hγ] at hsin
    have hlz : -γ * w.dot z + -β * u.dot z = -z.lengthSq := by
      subst hz
      simp only [Vector3.lengthSq, Vector3.dot, Vector3.add, Vector3.multiplyScalar]
      ring
    rw [hlz] at hsin
    have hneg : Real.sin (three.angleTo u z + three.angleTo w z)
        * (Real.sqrt u.lengthSq * Real.sqrt w.lengthSq * z.lengthSq) < 0 := by
      rw [hsin]
      have := mul_pos (Real.sqrt_pos.mpr hG) hzp
      linarith
    have hlt : Real.sin (three.angleTo u z + three.angleTo w z) < 0 := by
      by_contra hc
      push_neg at hc
      have := mul_nonneg hc (le_of_lt hK)
      linarith
    by_contra hc
    push_neg at hc
    have := Real.sin_nonneg_of_nonneg_of_le_pi (by linarith : 0 ≤ three.angleTo u z + three.angleTo w z)
      (by linarith)
    linarith

end Angles

/-! ### isInsideTriangle -/

section Triangle

/-- `isInsideTriangle` accepts exactly when `tot`, measured at `a` and then
at `b`, is strictly within `±0.001`. -/
theorem isInsideTriangle_iff {K : Type} [LinearOrderedField K] (L : Three K)
    (P a b c : Vector3 K) :
    isInsideTriangle L P a b c = true ↔
      (angleExcess L P a b c < 1 / 1000 ∧ angleExcess L P a b c > -(1 / 1000)) ∧
      (angleExcess L P b a c < 1 / 1000 ∧ angleExcess L P b a c > -(1 / 1000)) := by
  simp only [isInsideTriangle, angleExcess]
  constructor
  · intro h
    split at h
    · rename_i h1
      split at h
      · rename_i h2
        exact ⟨h1, h2⟩
      · cases h
    · cases h
  · rintro ⟨h1, h2⟩
    rw [if_pos h1, if_pos h2]

/-- A non-zero vector has positive squared length. -/
theorem lengthSq_pos_of_ne (v : Vector3 ℝ) (h : v ≠ ⟨0, 0, 0⟩) : 0 < v.lengthSq := by
  rcases lt_or_eq_of_le (lengthSq_nonneg v) with hlt | heq
  · exact hlt
  · exfalso
    apply h
    have hx : v.x = 0 := by
      unfold Vector3.lengthSq at heq
      nlinarith [mul_self_nonneg v.x, mul_self_nonneg v.y, mul_self_nonneg v.z]
    have hy : v.y = 0 := by
      unfold Vector3.lengthSq at heq
      nlinarith [mul_self_nonneg v.x, mul_self_nonneg v.y, mul_self_nonneg v.z]
    have hz : v.z = 0 := by
      unfold Vector3.lengthSq at heq
      nlinarith [mul_self_nonneg v.x, mul_self_nonneg v.y, mul_self_nonneg v.z]
    have hv : v = ⟨v.x, v.y, v.z⟩ := rfl
    rw [hv, hx, hy, hz]

/-- The edges at `a` of a non-degenerate triangle have a positive Gram determinant. -/
theorem gram_pos_of_nondegenerate (a b c : Vector3 ℝ) (h : Nondegenerate a b c) :
    0 < gram (b.sub a) (c.sub a) := by
  rw [gram_eq_cross]
  exact lengthSq_pos_of_ne _ h

/-- The Gram determinant of the edges at `b` equals the one of the edges at `a`. -/
theorem gram_at_b (a b c : Vector3 ℝ) :
    gram (a.sub b) (c.sub b) = gram (b.sub a) (c.sub a) := by
  simp only [gram, Vector3.lengthSq, Vector3.dot, Vector3.sub]
  ring

/-- The point `a + β (b - a) + γ (c - a)` seen from `a`. -/
theorem planePoint_sub_a (a b c : Vector3 ℝ) (β γ : ℝ) :
    (planePoint a b c β γ).sub a
      = ((b.sub a).multiplyScalar β).add ((c.sub a).multiplyScalar γ) := by
  simp only [planePoint, Vector3.sub, Vector3.add, Vector3.multiplyScalar, Vector3.mk.injEq]
  refine ⟨?_, ?_, ?_⟩ <;> ring

/-- The point `a + β (b - a) + γ (c - a)` seen from `b`. -/
theorem planePoint_sub_b (a b c : Vector3 ℝ) (β γ : ℝ) :
    (planePoint a b c β γ).sub b
      = ((a.sub b).multiplyScalar (1 - β - γ)).add ((c.sub b).multiplyScalar γ) := by
  simp only [planePoint, Vector3.sub, Vector3.add, Vector3.multiplyScalar, Vector3.mk.injEq]
  refine ⟨?_, ?_, ?_⟩ <;> ring

/-- A barycentric combination with weights summing to 1 is a point of the plane. -/
theorem barycentric_eq_planePoint (a b c : Vector3 ℝ) (wa wb wc : ℝ) (hsum : wa + wb + wc = 1) :
    barycentric a b c wa wb wc = planePoint a b c wb wc := by
  have hwa : wa = 1 - wb - wc := by linarith
  subst hwa
  simp only [barycentric, planePoint, Vector3.sub, Vector3.add, Vector3.multiplyScalar,
    Vector3.mk.injEq]
  refine ⟨?_, ?_, ?_⟩ <;> ring

/-- In a non-degenerate triangle, for `β, γ ≥ 0` not both zero, `tot` at `a` is zero. -/
theorem angleExcess_a_eq_zero (a b c : Vector3 ℝ) (β γ : ℝ) (hnd : Nondegenerate a b c)
    (hβ : 0 ≤ β) (hγ : 0 ≤ γ) (hne : ¬(β = 0 ∧ γ = 0)) :
    angleExcess three (planePoint a b c β γ) a b c = 0 := by
  unfold angleExcess
  rw [angleTo_cone (b.sub a) (c.sub a) _ β γ (planePoint_sub_a a b c β γ)
    (gram_pos_of_nondegenerate a b c hnd) hβ hγ hne]
  ring

/-- In a non-degenerate triangle, for weights `1 - β - γ ≥ 0` and `γ ≥ 0` not
both zero, `tot` at `b` is zero. -/
theorem angleExcess_b_eq_zero (a b c : Vector3 ℝ) (β γ : ℝ) (hnd : Nondegenerate a b c)
    (hα : 0 ≤ 1 - β - γ) (hγ : 0 ≤ γ) (hne : ¬(1 - β - γ = 0 ∧ γ = 0)) :
    angleExcess three (planePoint a b c β γ) b a c = 0 := by
  unfold angleExcess
  have hG : 0 < gram (a.sub b) (c.sub b) := by
    rw [gram_at_b]
    exact gram_pos_of_nondegenerate a b c hnd
  rw [angleTo_cone (a.sub b) (c.sub b) _ (1 - β - γ) γ (planePoint_sub_b a b c β γ) hG hα hγ hne]
  ring

/-- C4 (amended): `isInsideTriangle(P, a, b, c)` returns true for every
non-degenerate triangle `a, b, c` and every point `P = wa·a + wb·b + wc·c`
with weights in `[0, 1]` summing to 1 that is not the vertex `a` and not the
vertex `b` (the edges and the vertex `c` included), with `angleTo` the
arccosine of the clamped normalised dot product, `π/2` for a zero vector. -/
theorem isInsideTriangle_barycentric (a b c : Vector3 ℝ) (wa wb wc : ℝ)
    (hnd : Nondegenerate a b c)
    (ha : 0 ≤ wa ∧ wa ≤ 1) (hb : 0 ≤ wb ∧ wb ≤ 1) (hc : 0 ≤ wc ∧ wc ≤ 1)
    (hsum : wa + wb + wc = 1)
    (hPa : barycentric a b c wa wb wc ≠ a) (hPb : barycentric a b c wa wb wc ≠ b) :
    isInsideTriangle three (barycentric a b c wa wb wc) a b c = true := by
  have hP := barycentric_eq_planePoint a b c wa wb wc hsum
  have hwa : 1 - wb - wc = wa := by linarith
  have hneA : ¬(wb = 0 ∧ wc = 0) := by
    rintro ⟨h1, h2⟩
    apply hPa
    rw [hP, h1, h2]
    simp [planePoint, Vector3.add, Vector3.multiplyScalar]
  have hneB : ¬(1 - wb - wc = 0 ∧ wc = 0) := by
    rintro ⟨h1, h2⟩
    apply hPb
    have h3 : wb = 1 := by linarith
    rw [hP, h3, h2]
    simp [planePoint, Vector3.add, Vector3.multiplyScalar, Vector3.sub]
  rw [isInsideTriangle_iff, hP,
    angleExcess_a_eq_zero a b c wb wc hnd hb.1 hc.1 hneA,
    angleExcess_b_eq_zero a b c wb wc hnd (by linarith [ha.1]) hc.1 hneB]
  norm_num

end Triangle

/-- The triangle `(0,0,0), (1,0,0), (0,1,0)` is non-degenerate. -/
theorem nondegenerate_plate :
    Nondegenerate (⟨0, 0, 0⟩ : Vector3 ℝ) ⟨1, 0, 0⟩ ⟨0, 1, 0⟩ := by
  simp [Nondegenerate, Vector3.cross, Vector3.sub]

/-- C4 (amended), at the centroid of the triangle `(0,0,0), (1,0,0), (0,1,0)`. -/
theorem isInsideTriangle_barycentric_witness :
    Nondegenerate (⟨0, 0, 0⟩ : Vector3 ℝ) ⟨1, 0, 0⟩ ⟨0, 1, 0⟩ ∧
    (1 / 3 : ℝ) + 1 / 3 + 1 / 3 = 1 ∧
    barycentric (⟨0, 0, 0⟩ : Vector3 ℝ) ⟨1, 0, 0⟩ ⟨0, 1, 0⟩ (1 / 3) (1 / 3) (1 / 3)
      ≠ ⟨0, 0, 0⟩ ∧
    barycentric (⟨0, 0, 0⟩ : Vector3 ℝ) ⟨1, 0, 0⟩ ⟨0, 1, 0⟩ (1 / 3) (1 / 3) (1 / 3)
      ≠ ⟨1, 0, 0⟩ ∧
    isInsideTriangle three
      (barycentric (⟨0, 0, 0⟩ : Vector3 ℝ) ⟨1, 0, 0⟩ ⟨0, 1, 0⟩ (1 / 3) (1 / 3) (1 / 3))
      ⟨0, 0, 0⟩ ⟨1, 0, 0⟩ ⟨0, 1, 0⟩ = true :=
  have h1 : barycentric (⟨0, 0, 0⟩ : Vector3 ℝ) ⟨1, 0, 0⟩ ⟨0, 1, 0⟩ (1 / 3) (1 / 3) (1 / 3)
      ≠ ⟨0, 0, 0⟩ := by
    simp [barycentric, Vector3.add, Vector3.multiplyScalar]
  have h2 : barycentric (⟨0, 0, 0⟩ : Vector3 ℝ) ⟨1, 0, 0⟩ ⟨0, 1, 0⟩ (1 / 3) (1 / 3) (1 / 3)
      ≠ ⟨1, 0, 0⟩ := by
    simp [barycentric, Vector3.add, Vector3.multiplyScalar]
  ⟨nondegenerate_plate, by norm_num, h1, h2,
   isInsideTriangle_barycentric _ _ _ (1 / 3) (1 / 3) (1 / 3) nondegenerate_plate
     (by norm_num) (by norm_num) (by norm_num) (by norm_num) h1 h2⟩

/-- C4, as stated, fails at the vertex `a`: in the non-degenerate triangle
`a = (0,0,0)`, `b = (1,0,0)`, `c = (0,1,0)` the point with weights `1, 0, 0`
is `a` itself, the vector `P - a` has length zero, `angleTo` returns `π/2`
for it, `tot = π/2`, and `isInsideTriangle` returns false. -/
theorem isInsideTriangle_vertex_a_rejected :
    Nondegenerate (⟨0, 0, 0⟩ : Vector3 ℝ) ⟨1, 0, 0⟩ ⟨0, 1, 0⟩ ∧
    (0 : ℝ) ≤ 1 ∧ (1 : ℝ) ≤ 1 ∧ (0 : ℝ) ≤ 0 ∧ (0 : ℝ) ≤ 1 ∧ (1 : ℝ) + 0 + 0 = 1 ∧
    barycentric (⟨0, 0, 0⟩ : Vector3 ℝ) ⟨1, 0, 0⟩ ⟨0, 1, 0⟩ 1 0 0 = ⟨0, 0, 0⟩ ∧
    isInsideTriangle three
      (barycentric (⟨0, 0, 0⟩ : Vector3 ℝ) ⟨1, 0, 0⟩ ⟨0, 1, 0⟩ 1 0 0)
      ⟨0, 0, 0⟩ ⟨1, 0, 0⟩ ⟨0, 1, 0⟩ = false := by
  have hP : barycentric (⟨0, 0, 0⟩ : Vector3 ℝ) ⟨1, 0, 0⟩ ⟨0, 1, 0⟩ 1 0 0 = ⟨0, 0, 0⟩ := by
    simp [barycentric, Vector3.add, Vector3.multiplyScalar]
  refine ⟨nondegenerate_plate, by norm_num, by norm_num, by norm_num, by norm_num,
    by norm_num, hP, ?_⟩
  rw [hP]
  have h1 : three.angleTo (⟨1, 0, 0⟩ : Vector3 ℝ) ⟨0, 1, 0⟩ = Real.pi / 2 := by
    simp [three, Vector3.lengthSq, Vector3.dot, clamp]
  have h2 : three.angleTo (⟨0, 1, 0⟩ : Vector3 ℝ) ⟨0, 0, 0⟩ = Real.pi / 2 := by
    simp [three, Vector3.lengthSq, Vector3.dot, clamp]
  have h3 : three.angleTo (⟨1, 0, 0⟩ : Vector3 ℝ) ⟨0, 0, 0⟩ = Real.pi / 2 := by
    simp [three, Vector3.lengthSq, Vector3.dot, clamp]
  have hpi := Real.pi_gt_three
  have hnot : ¬ (Real.pi / 2 + Real.pi / 2 - Real.pi / 2 < 1 / 1000 ∧
      Real.pi / 2 + Real.pi / 2 - Real.pi / 2 > -(1 / 1000)) := by
    intro h
    linarith [h.1]
  simp only [isInsideTriangle, Vector3.sub, sub_zero, h1, h2, h3, if_neg hnot]

section Tolerance

/-- `angleTo` is symmetric. -/
theorem three_angleTo_comm (u v : Vector3 ℝ) : three.angleTo u v = three.angleTo v u := by
  have h1 : u.lengthSq * v.lengthSq = v.lengthSq * u.lengthSq := mul_comm _ _
  have h2 : u.dot v = v.dot u := by
    simp only [Vector3.dot]
    ring
  simp only [three, h1, h2]

/-- When `u` lies in the cone of `w` and `z`, `tot` for `u, w, z` is twice
the angle from `u` to `z`. -/
theorem angle_excess_near_edge (u w z : Vector3 ℝ) (l m : ℝ)
    (hu : u = (w.multiplyScalar l).add (z.multiplyScalar m)) (hG : 0 < gram w z)
    (hl : 0 ≤ l) (hm : 0 ≤ m) (hne : ¬(l = 0 ∧ m = 0)) :
    three.angleTo u z + three.angleTo w z - three.angleTo u w = 2 * three.angleTo u z := by
  have h := angleTo_cone w z u l m hu hG hl hm hne
  rw [three_angleTo_comm z u] at h
  rw [three_angleTo_comm u w, ← h]
  ring

/-- An upper bound of `angleTo` from a lower bound of the cosine. -/
theorem three_angleTo_le (u z : Vector3 ℝ) (y : ℝ) (hy0 : 0 ≤ y) (hy1 : y ≤ Real.pi)
    (hs : 0 < Real.sqrt (u.lengthSq * z.lengthSq))
    (h : Real.cos y * Real.sqrt (u.lengthSq * z.lengthSq) ≤ u.dot z) :
    three.angleTo u z ≤ y := by
  by_contra hc
  push_neg at hc
  have hlt := Real.cos_lt_cos_of_nonneg_of_le_pi hy0 (three_angleTo_le_pi u z) hc
  have := three_cos_angleTo u z
  nlinarith

/-- The cosine of `1/2500` is at most `1 - 7 / 10 ^ 8`. -/
theorem cos_small_le : Real.cos (1 / 2500) ≤ 1 - 7 / 10 ^ 8 := by
  have h := Real.cos_bound (x := 1 / 2500) (by rw [abs_of_nonneg] <;> norm_num)
  have h2 := (abs_le.mp h).2
  rw [abs_of_nonneg (by norm_num : (0 : ℝ) ≤ 1 / 2500)] at h2
  norm_num at h2 ⊢
  linarith

/-- The angle between `(±2, 0, 0)` and `(±1, -1/10000, 0)` is at most `1/2500`. -/
theorem angleTo_near_edge_le (s : ℝ) (hs : s = 1 ∨ s = -1) :
    three.angleTo ⟨s * 2, 0, 0⟩ ⟨s * 1, -(1 / 10000), 0⟩ ≤ 1 / 2500 := by
  have hl : (⟨s * 2, 0, 0⟩ : Vector3 ℝ).lengthSq
      * (⟨s * 1, -(1 / 10000), 0⟩ : Vector3 ℝ).lengthSq = 4 + 4 / 10 ^ 8 := by
    rcases hs with h | h <;> subst h <;> simp only [Vector3.lengthSq] <;> norm_num
  have hd : (⟨s * 2, 0, 0⟩ : Vector3 ℝ).dot ⟨s * 1, -(1 / 10000), 0⟩ = 2 := by
    rcases hs with h | h <;> subst h <;> simp only [Vector3.dot] <;> norm_num
  have hpi := Real.pi_gt_three
  have hsq_pos : 0 < Real.sqrt ((4 : ℝ) + 4 / 10 ^ 8) := Real.sqrt_pos.mpr (by norm_num)
  have hsq_le : Real.sqrt ((4 : ℝ) + 4 / 10 ^ 8) ≤ 2 + 1 / 10 ^ 8 := by
    rw [Real.sqrt_le_iff]
    constructor <;> norm_num
  apply three_angleTo_le _ _ _ (by norm_num) (by linarith)
  · rw [hl]; exact hsq_pos
  · rw [hl, hd]
    have hc := cos_small_le
    have hc0 : 0 ≤ Real.cos (1 / 2500) :=
      Real.cos_nonneg_of_mem_Icc ⟨by linarith, by linarith⟩
    calc Real.cos (1 / 2500) * Real.sqrt (4 + 4 / 10 ^ 8)
        ≤ (1 - 7 / 10 ^ 8) * (2 + 1 / 10 ^ 8) :=
          mul_le_mul hc hsq_le (le_of_lt hsq_pos) (by norm_num)
      _ ≤ 2 := by norm_num

/-- C5, as stated, fails next to an edge: in the non-degenerate triangle
`a = (-1,0,0)`, `b = (1,0,0)`, `c = (0,1,0)` the point
`P = a + (10001/20000)(b - a) - (1/10000)(c - a) = (0, -1/10000, 0)` lies in
the plane of the triangle and strictly outside it (its weight on `c` is
negative), at distance `1/10000` from the edge `ab`; `tot` is below `0.001`
at `a` and at `b`, and `isInsideTriangle` returns true. -/
theorem isInsideTriangle_outside_accepted :
    Nondegenerate (⟨-1, 0, 0⟩ : Vector3 ℝ) ⟨1, 0, 0⟩ ⟨0, 1, 0⟩ ∧
    planePoint (⟨-1, 0, 0⟩ : Vector3 ℝ) ⟨1, 0, 0⟩ ⟨0, 1, 0⟩ (10001 / 20000) (-(1 / 10000))
      = ⟨0, -(1 / 10000), 0⟩ ∧
    (-(1 / 10000) : ℝ) < 0 ∧
    isInsideTriangle three
      (planePoint (⟨-1, 0, 0⟩ : Vector3 ℝ) ⟨1, 0, 0⟩ ⟨0, 1, 0⟩ (10001 / 20000) (-(1 / 10000)))
      ⟨-1, 0, 0⟩ ⟨1, 0, 0⟩ ⟨0, 1, 0⟩ = true := by
  have hnd : Nondegenerate (⟨-1, 0, 0⟩ : Vector3 ℝ) ⟨1, 0, 0⟩ ⟨0, 1, 0⟩ := by
    simp [Nondegenerate, Vector3.cross, Vector3.sub]
  have hP : planePoint (⟨-1, 0, 0⟩ : Vector3 ℝ) ⟨1, 0, 0⟩ ⟨0, 1, 0⟩ (10001 / 20000)
      (-(1 / 10000)) = ⟨0, -(1 / 10000), 0⟩ := by
    simp only [planePoint, Vector3.sub, Vector3.add, Vector3.multiplyScalar, Vector3.mk.injEq]
    norm_num
  refine ⟨hnd, hP, by norm_num, ?_⟩
  rw [hP, isInsideTriangle_iff]
  have ea : angleExcess three (⟨0, -(1 / 10000), 0⟩ : Vector3 ℝ) ⟨-1, 0, 0⟩ ⟨1, 0, 0⟩ ⟨0, 1, 0⟩
      = 2 * three.angleTo ⟨1 * 2, 0, 0⟩ ⟨1 * 1, -(1 / 10000), 0⟩ := by
    have h := angle_excess_near_edge (⟨2, 0, 0⟩ : Vector3 ℝ) ⟨1, 1, 0⟩ ⟨1, -(1 / 10000), 0⟩
      (2 / 10001) (20000 / 10001)
      (by simp only [Vector3.add, Vector3.multiplyScalar, Vector3.mk.injEq]; norm_num)
      (by simp only [gram, Vector3.lengthSq, Vector3.dot]; norm_num)
      (by norm_num) (by norm_num) (by norm_num)
    simp only [angleExcess, Vector3.sub]
    norm_num
    norm_num at h
    linarith
  have eb : angleExcess three (⟨0, -(1 / 10000), 0⟩ : Vector3 ℝ) ⟨1, 0, 0⟩ ⟨-1, 0, 0⟩ ⟨0, 1, 0⟩
      = 2 * three.angleTo ⟨-1 * 2, 0, 0⟩ ⟨-1 * 1, -(1 / 10000), 0⟩ := by
    have h := angle_excess_near_edge (⟨-2, 0, 0⟩ : Vector3 ℝ) ⟨-1, 1, 0⟩ ⟨-1, -(1 / 10000), 0⟩
      (2 / 10001) (20000 / 10001)
      (by simp only [Vector3.add, Vector3.multiplyScalar, Vector3.mk.injEq]; norm_num)
      (by simp only [gram, Vector3.lengthSq, Vector3.dot]; norm_num)
      (by norm_num) (by norm_num) (by norm_num)
    simp only [angleExcess, Vector3.sub]
    norm_num
    norm_num at h
    linarith
  have ha := angleTo_near_edge_le 1 (Or.inl rfl)
  have hb := angleTo_near_edge_le (-1) (Or.inr rfl)
  have ha0 := three_angleTo_nonneg (⟨1 * 2, 0, 0⟩ : Vector3 ℝ) ⟨1 * 1, -(1 / 10000), 0⟩
  have hb0 := three_angleTo_nonneg (⟨-1 * 2, 0, 0⟩ : Vector3 ℝ) ⟨-1 * 1, -(1 / 10000), 0⟩
  rw [ea, eb]
  refine ⟨⟨?_, ?_⟩, ⟨?_, ?_⟩⟩ <;> linarith

end Tolerance

section Outside

/-- Outside the cone at `a` (`β < 0` or `γ < 0`), `tot` at `a` is positive. -/
theorem angleExcess_a_pos (a b c : Vector3 ℝ) (β γ : ℝ) (hnd : Nondegenerate a b c)
    (hout : β < 0 ∨ γ < 0) :
    0 < angleExcess three (planePoint a b c β γ) a b c := by
  unfold angleExcess
  have h := angleTo_outside (b.sub a) (c.sub a) _ β γ (planePoint_sub_a a b c β γ)
    (gram_pos_of_nondegenerate a b c hnd) hout
  linarith

/-- Outside the cone at `b` (`1 - β - γ < 0` or `γ < 0`), `tot` at `b` is positive. -/
theorem angleExcess_b_pos (a b c : Vector3 ℝ) (β γ : ℝ) (hnd : Nondegenerate a b c)
    (hout : 1 - β - γ < 0 ∨ γ < 0) :
    0 < angleExcess three (planePoint a b c β γ) b a c := by
  unfold angleExcess
  have hG : 0 < gram (a.sub b) (c.sub b) := by
    rw [gram_at_b]
    exact gram_pos_of_nondegenerate a b c hnd
  have h := angleTo_outside (a.sub b) (c.sub b) _ (1 - β - γ) γ (planePoint_sub_b a b c β γ)
    hG hout
  linarith

/-- C5 (amended): for a non-degenerate triangle `a, b, c` and a point
`P = a + β (b - a) + γ (c - a)` of its plane strictly outside the triangle
(a barycentric weight is negative), `tot = omega3 + omega2 - omega1` is
non-negative at `a` and at `b` and positive at one of them, and
`isInsideTriangle(P, a, b, c)` returns false exactly when `tot` at `a` or at
`b` is at least `0.001`. -/
theorem isInsideTriangle_outside (a b c : Vector3 ℝ) (β γ : ℝ) (hnd : Nondegenerate a b c)
    (hout : β < 0 ∨ γ < 0 ∨ 1 < β + γ) :
    (0 ≤ angleExcess three (planePoint a b c β γ) a b c ∧
      0 ≤ angleExcess three (planePoint a b c β γ) b a c ∧
      (0 < angleExcess three (planePoint a b c β γ) a b c ∨
        0 < angleExcess three (planePoint a b c β γ) b a c)) ∧
    (isInsideTriangle three (planePoint a b c β γ) a b c = false ↔
      (1 / 1000 ≤ angleExcess three (planePoint a b c β γ) a b c ∨
        1 / 1000 ≤ angleExcess three (planePoint a b c β γ) b a c)) := by
  have hA : 0 ≤ angleExcess three (planePoint a b c β γ) a b c := by
    by_cases h : β < 0 ∨ γ < 0
    · exact le_of_lt (angleExcess_a_pos a b c β γ hnd h)
    · push_neg at h
      have hne : ¬(β = 0 ∧ γ = 0) := by
        rintro ⟨h1, h2⟩
        rcases hout with h3 | h3 | h3 <;> linarith
      exact le_of_eq (angleExcess_a_eq_zero a b c β γ hnd h.1 h.2 hne).symm
  have hB : 0 ≤ angleExcess three (planePoint a b c β γ) b a c := by
    by_cases h : 1 - β - γ < 0 ∨ γ < 0
    · exact le_of_lt (angleExcess_b_pos a b c β γ hnd h)
    · push_neg at h
      have hne : ¬(1 - β - γ = 0 ∧ γ = 0) := by
        rintro ⟨h1, h2⟩
        rcases hout with h3 | h3 | h3 <;> linarith
      exact le_of_eq (angleExcess_b_eq_zero a b c β γ hnd h.1 h.2 hne).symm
  have hpos : 0 < angleExcess three (planePoint a b c β γ) a b c ∨
      0 < angleExcess three (planePoint a b c β γ) b a c := by
    rcases hout with h | h | h
    · exact Or.inl (angleExcess_a_pos a b c β γ hnd (Or.inl h))
    · exact Or.inl (angleExcess_a_pos a b c β γ hnd (Or.inr h))
    · exact Or.inr (angleExcess_b_pos a b c β γ hnd (Or.inl (by linarith)))
  refine ⟨⟨hA, hB, hpos⟩, ?_⟩
  rw [← Bool.not_eq_true, isInsideTriangle_iff]
  constructor
  · intro h
    by_contra hc
    push_neg at hc
    exact h ⟨⟨hc.1, by linarith⟩, ⟨hc.2, by linarith⟩⟩
  · rintro (h | h) ⟨⟨h1, _⟩, ⟨h2, _⟩⟩ <;> linarith

/-- C5 (amended), at the point `a - (b - a) = (-1, 0, 0)` of the plane of
the triangle `(0,0,0), (1,0,0), (0,1,0)`. -/
theorem isInsideTriangle_outside_witness :
    Nondegenerate (⟨0, 0, 0⟩ : Vector3 ℝ) ⟨1, 0, 0⟩ ⟨0, 1, 0⟩ ∧
    ((-1 : ℝ) < 0 ∨ (0 : ℝ) < 0 ∨ (1 : ℝ) < -1 + 0) ∧
    (isInsideTriangle three
        (planePoint (⟨0, 0, 0⟩ : Vector3 ℝ) ⟨1, 0, 0⟩ ⟨0, 1, 0⟩ (-1) 0)
        ⟨0, 0, 0⟩ ⟨1, 0, 0⟩ ⟨0, 1, 0⟩ = false ↔
      (1 / 1000 ≤ angleExcess three
          (planePoint (⟨0, 0, 0⟩ : Vector3 ℝ) ⟨1, 0, 0⟩ ⟨0, 1, 0⟩ (-1) 0)
          ⟨0, 0, 0⟩ ⟨1, 0, 0⟩ ⟨0, 1, 0⟩ ∨
        1 / 1000 ≤ angleExcess three
          (planePoint (⟨0, 0, 0⟩ : Vector3 ℝ) ⟨1, 0, 0⟩ ⟨0, 1, 0⟩ (-1) 0)
          ⟨1, 0, 0⟩ ⟨0, 0, 0⟩ ⟨0, 1, 0⟩)) :=
  ⟨nondegenerate_plate, Or.inl (by norm_num),
   (isInsideTriangle_outside _ _ _ (-1) 0 nondegenerate_plate (Or.inl (by norm_num))).2⟩

end Outside

/-! ### The impulse -/

section ContactNormal
variable {K : Type} [LinearOrderedField K]

/-- A finite time of intersection means a non-zero denominator `N·V`. -/
theorem timeOfIntersectPlaneLine_some (V P0 N Pf : Vector3 K) (t : K)
    (h : timeOfIntersectPlaneLine V P0 N Pf = some t) : N.dot V ≠ 0 := by
  intro h0
  have h0' : N.x * V.x + N.y * V.y + N.z * V.z = 0 := h0
  simp [timeOfIntersectPlaneLine, h0'] at h

/-- A normal with `N·V ≠ 0`, flipped, has a non-zero squared length. -/
theorem lengthSq_flip_ne_zero (N V : Vector3 K) (h : N.dot V ≠ 0) :
    (N.multiplyScalar (-1)).lengthSq ≠ 0 := by
  intro h0
  apply h
  simp only [Vector3.lengthSq, Vector3.multiplyScalar] at h0
  have hx : N.x = 0 := by
    nlinarith [mul_self_nonneg N.x, mul_self_nonneg N.y, mul_self_nonneg N.z]
  have hy : N.y = 0 := by
    nlinarith [mul_self_nonneg N.x, mul_self_nonneg N.y, mul_self_nonneg N.z]
  have hz : N.z = 0 := by
    nlinarith [mul_self_nonneg N.x, mul_self_nonneg N.y, mul_self_nonneg N.z]
  simp [Vector3.dot, hx, hy, hz]

/-- The forward face test keeps `NormalOk`. -/
theorem forwardFace_normalOk (L : Three K) (obj2 : GameObject K) (velocity point : Vector3 K)
    (s : Contact K) (face : Face K obj2.geoBound.vertices.length) (h : NormalOk s) :
    NormalOk (forwardFace L obj2 velocity point s face) := by
  unfold forwardFace
  dsimp only
  split
  · split
    · exact h
    · rename_i time htime
      have hN := lengthSq_flip_ne_zero _ _ (timeOfIntersectPlaneLine_some _ _ _ _ _ htime)
      split
      · split
        · split <;> split <;> first | exact h | exact fun _ => hN
        · exact h
      · exact h
  · exact h

/-- The reverse face test keeps `NormalOk`. -/
theorem reverseFace_normalOk (L : Three K) (obj1 obj2 : GameObject K)
    (vertex velocity : Vector3 K) (s : Contact K)
    (face : Face K obj1.geoBound.vertices.length) (h : NormalOk s) :
    NormalOk (reverseFace L obj1 obj2 vertex velocity s face) := by
  unfold reverseFace
  dsimp only
  split
  · split
    · exact h
    · rename_i time htime
      have hN := lengthSq_flip_ne_zero _ _ (timeOfIntersectPlaneLine_some _ _ _ _ _ htime)
      split
      · split
        · split <;> split <;> first | exact h | exact fun _ => hN
        · exact h
      · exact h
  · exact h

/-- A fold that keeps a property at each step keeps it. -/
theorem foldl_keeps {α β : Type} (P : β → Prop) (f : β → α → β)
    (hf : ∀ s x, P s → P (f s x)) (xs : List α) (s : β) (h : P s) : P (xs.foldl f s) := by
  induction xs generalizing s with
  | nil => exact h
  | cons x xs ih => exact ih (f s x) (hf s x h)

/-- The contact that the loops of `constrainCollisions` find has a non-zero normal. -/
theorem narrowPhase_normalOk (L : Three K) (vel : Vector3 K) (objRot : Euler K)
    (obj1 obj2 : GameObject K) : NormalOk (narrowPhase L vel objRot obj1 obj2) := by
  unfold narrowPhase
  dsimp only
  apply foldl_keeps NormalOk
  · intro s vertex hs
    unfold reverseVertex
    exact foldl_keeps NormalOk _ (fun s face hs => reverseFace_normalOk L obj1 obj2 _ _ s face hs)
      _ s hs
  · apply foldl_keeps NormalOk
    · intro s vertex hs
      unfold forwardVertex
      exact foldl_keeps NormalOk _ (fun s face hs => forwardFace_normalOk L obj2 _ _ s face hs)
        _ s hs
    · intro h
      exact absurd rfl h

end ContactNormal

section Impulse

/-- The normalised contact normal has length 1. -/
theorem normalize_lengthSq (n : Vector3 ℝ) (hn : n.lengthSq ≠ 0) :
    (normalize three n).lengthSq = 1 := by
  have hpos : 0 < n.lengthSq := lt_of_le_of_ne (lengthSq_nonneg n) (Ne.symm hn)
  have hs : Real.sqrt n.lengthSq ≠ 0 := ne_of_gt (Real.sqrt_pos.mpr hpos)
  have hsq : Real.sqrt n.lengthSq * Real.sqrt n.lengthSq = n.lengthSq :=
    Real.mul_self_sqrt (le_of_lt hpos)
  have hlen : three.length n = Real.sqrt n.lengthSq := rfl
  simp only [normalize, hlen, if_neg hs, Vector3.multiplyScalar]
  have e : (⟨n.x * (1 / Real.sqrt n.lengthSq), n.y * (1 / Real.sqrt n.lengthSq),
      n.z * (1 / Real.sqrt n.lengthSq)⟩ : Vector3 ℝ).lengthSq
      = n.lengthSq / (Real.sqrt n.lengthSq * Real.sqrt n.lengthSq) := by
    simp only [Vector3.lengthSq]
    field_simp
  rw [e, hsq, div_self hn]

/-- The incoming speed of `constrainCollisions`: `cos(π - angle(V, n)) * |V|`
is minus the component of `V` along the normalised `n`. -/
theorem incoming_speed (v n : Vector3 ℝ) (hn : n.lengthSq ≠ 0) :
    three.cos (three.PI - three.angleTo v n) * three.length v
      = -(v.dot (normalize three n)) := by
  have hpos : 0 < n.lengthSq := lt_of_le_of_ne (lengthSq_nonneg n) (Ne.symm hn)
  have hs : Real.sqrt n.lengthSq ≠ 0 := ne_of_gt (Real.sqrt_pos.mpr hpos)
  have hlen : three.length n = Real.sqrt n.lengthSq := rfl
  have hc := three_cos_angleTo v n
  rw [Real.sqrt_mul (lengthSq_nonneg v)] at hc
  have hdot : v.dot (normalize three n) = v.dot n / Real.sqrt n.lengthSq := by
    simp only [normalize, hlen, if_neg hs, Vector3.multiplyScalar, Vector3.dot]
    field_simp
  show Real.cos (Real.pi - three.angleTo v n) * Real.sqrt v.lengthSq = _
  rw [Real.cos_pi_sub, hdot, ← hc]
  field_simp
  ring

/-- C8: for two active bodies `A` and `B` of equal mass `m > 0` and
elasticity 1 with nothing queued, and a contact found by
`constrainCollisions(vel = A.velocity, objRot, A, B)`, the contact normal `N`
that the impulses are queued along is a unit vector, and after each body's
next `updateVelocity(0.001)` the component of `A`'s velocity along `N` is the
previous component of `B`'s velocity along `N`, and vice versa. -/
theorem elastic_exchange (A B : GameObject ℝ) (objRot : Euler ℝ) (m : ℝ)
    (hA : A.needsUpdate = true) (hB : B.needsUpdate = true)
    (hmA : A.mass = m) (hmB : B.mass = m) (hm : 0 < m)
    (heA : A.elasticity = 1) (heB : B.elasticity = 1)
    (hqA : A.forces = []) (hqB : B.forces = [])
    (hc : (narrowPhase three A.velocity objRot A B).contactPoint ≠ none) :
    (normalize three (narrowPhase three A.velocity objRot A B).normalForce).lengthSq = 1 ∧
    (((constrainCollisions three A.velocity objRot A B).2.1.updateVelocity
        (1 / 1000)).velocity).dot
        (normalize three (narrowPhase three A.velocity objRot A B).normalForce)
      = B.velocity.dot (normalize three (narrowPhase three A.velocity objRot A B).normalForce) ∧
    (((constrainCollisions three A.velocity objRot A B).2.2.updateVelocity
        (1 / 1000)).velocity).dot
        (normalize three (narrowPhase three A.velocity objRot A B).normalForce)
      = A.velocity.dot (normalize three (narrowPhase three A.velocity objRot A B).normalForce) := by
  have hn := narrowPhase_normalOk three A.velocity objRot A B hc
  have hN := normalize_lengthSq _ hn
  have hva := incoming_speed A.velocity _ hn
  have hvb := incoming_speed B.velocity _ hn
  have hm0 : m ≠ 0 := ne_of_gt hm
  obtain ⟨cp, hcp⟩ := Option.ne_none_iff_exists'.mp hc
  have hsa : ∀ x y : ℝ, speedAfterA m m x y = y := by
    intro x y
    unfold speedAfterA
    field_simp
    ring
  have hsb : ∀ x y : ℝ, speedAfterB m m x y = x := by
    intro x y
    unfold speedAfterB
    field_simp
    ring
  refine ⟨hN, ?_, ?_⟩
  · simp only [constrainCollisions, hcp, GameObject.applyForce, hA, if_true,
      GameObject.updateVelocity, hqA, List.nil_append, List.foldl_cons, List.foldl_nil,
      hmA, hmB, heA, hva, hvb, hsa]
    generalize normalize three (narrowPhase three A.velocity objRot A B).normalForce = N at hN ⊢
    simp only [Vector3.dot, Vector3.multiplyScalar, Vector3.lengthSq] at hN ⊢
    field_simp
    linear_combination
      ((B.velocity.x * N.x + B.velocity.y * N.y + B.velocity.z * N.z
        - (A.velocity.x * N.x + A.velocity.y * N.y + A.velocity.z * N.z)) * 1000 * m) * hN
  · simp only [constrainCollisions, hcp, GameObject.applyForce, hB, if_true,
      GameObject.updateVelocity, hqB, List.nil_append, List.foldl_cons, List.foldl_nil,
      hmA, hmB, heB, hva, hvb, hsb]
    generalize normalize three (narrowPhase three A.velocity objRot A B).normalForce = N at hN ⊢
    simp only [Vector3.dot, Vector3.multiplyScalar, Vector3.lengthSq] at hN ⊢
    field_simp
    linear_combination
      ((A.velocity.x * N.x + A.velocity.y * N.y + A.velocity.z * N.z
        - (B.velocity.x * N.x + B.velocity.y * N.y + B.velocity.z * N.z)) * 1000 * m) * hN

end Impulse

/-- The loops of `constrainCollisions` for `onePoint` falling on
`risingPlate` find a contact. -/
theorem narrowPhase_onePoint_rising :
    (narrowPhase three (onePoint : GameObject ℝ).velocity ⟨0, 0, 0⟩ onePoint
      risingPlate).contactPoint ≠ none := by
  have h : narrowPhase three (onePoint : GameObject ℝ).velocity ⟨0, 0, 0⟩ onePoint risingPlate
      = { collisionTime := 2, normalForce := ⟨0, 0, -1⟩, contactPoint := some ⟨0, 1, 0⟩,
          constrainedVelocity := ⟨0, 0, -(1 / 4)⟩ } := by
    simp [narrowPhase, onePoint, risingPlate, bodyOf, pointGeometry, triangleGeometry,
      forwardVertex, forwardFace, reverseVertex, three_applyEuler_zero, Euler.lengthSq,
      Vector3.add, Vector3.dot, timeOfIntersectPlaneLine, Vector3.sub, Vector3.multiplyScalar]
    norm_num [isInsideTriangle_plate_c]
  rw [h]
  simp

/-- C8, at the active bodies `onePoint` (velocity `(0, 0, -1)`) and
`risingPlate` (velocity `(0, 0, 1)`), both of mass 1 and elasticity 1,
meeting head-on. -/
theorem elastic_exchange_witness :
    (onePoint : GameObject ℝ).needsUpdate = true ∧
    (risingPlate : GameObject ℝ).needsUpdate = true ∧
    (onePoint : GameObject ℝ).mass = 1 ∧ (risingPlate : GameObject ℝ).mass = 1 ∧
    (0 : ℝ) < 1 ∧
    (onePoint : GameObject ℝ).elasticity = 1 ∧ (risingPlate : GameObject ℝ).elasticity = 1 ∧
    (onePoint : GameObject ℝ).forces = [] ∧ (risingPlate : GameObject ℝ).forces = [] ∧
    (narrowPhase three (onePoint : GameObject ℝ).velocity ⟨0, 0, 0⟩ onePoint
      risingPlate).contactPoint ≠ none ∧
    (((constrainCollisions three (onePoint : GameObject ℝ).velocity ⟨0, 0, 0⟩ onePoint
        risingPlate).2.1.updateVelocity (1 / 1000)).velocity).dot
        (normalize three (narrowPhase three (onePoint : GameObject ℝ).velocity ⟨0, 0, 0⟩
          onePoint risingPlate).normalForce)
      = (risingPlate : GameObject ℝ).velocity.dot
          (normalize three (narrowPhase three (onePoint : GameObject ℝ).velocity ⟨0, 0, 0⟩
            onePoint risingPlate).normalForce) :=
  ⟨rfl, rfl, rfl, rfl, one_pos, rfl, rfl, rfl, rfl, narrowPhase_onePoint_rising,
   (elastic_exchange onePoint risingPlate ⟨0, 0, 0⟩ 1 rfl rfl rfl rfl one_pos rfl rfl rfl rfl
     narrowPhase_onePoint_rising).2.1⟩

section CollisionTime
variable {K : Type} [LinearOrderedField K]

/-- The forward face test never assigns `collisionTime`. -/
theorem forwardFace_collisionTime (L : Three K) (obj2 : GameObject K)
    (velocity point : Vector3 K) (s : Contact K) (face : Face K obj2.geoBound.vertices.length) :
    (forwardFace L obj2 velocity point s face).collisionTime = s.collisionTime := by
  unfold forwardFace
  dsimp only
  split
  · split
    · rfl
    · split
      · split
        · split <;> split <;> rfl
        · rfl
      · rfl
  · rfl

/-- The reverse face test never assigns `collisionTime`. -/
theorem reverseFace_collisionTime (L : Three K) (obj1 obj2 : GameObject K)
    (vertex velocity : Vector3 K) (s : Contact K)
    (face : Face K obj1.geoBound.vertices.length) :
    (reverseFace L obj1 obj2 vertex velocity s face).collisionTime = s.collisionTime := by
  unfold reverseFace
  dsimp only
  split
  · split
    · rfl
    · split
      · split
        · split <;> split <;> rfl
        · rfl
      · rfl
  · rfl

/-- After the loops of `constrainCollisions`, `collisionTime` still has its
initial value 2, whatever was hit. -/
theorem narrowPhase_collisionTime (L : Three K) (vel : Vector3 K) (objRot : Euler K)
    (obj1 obj2 : GameObject K) : (narrowPhase L vel objRot obj1 obj2).collisionTime = 2 := by
  unfold narrowPhase
  dsimp only
  apply foldl_keeps (fun s : Contact K => s.collisionTime = 2)
  · intro s vertex hs
    unfold reverseVertex
    exact foldl_keeps (fun s : Contact K => s.collisionTime = 2) _
      (fun s face hs => (reverseFace_collisionTime L obj1 obj2 _ _ s face).trans hs) _ s hs
  · apply foldl_keeps (fun s : Contact K => s.collisionTime = 2)
    · intro s vertex hs
      unfold forwardVertex
      exact foldl_keeps (fun s : Contact K => s.collisionTime = 2) _
        (fun s face hs => (forwardFace_collisionTime L obj2 _ _ s face).trans hs) _ s hs
    · rfl

end CollisionTime

section Penetration
variable {K : Type} [LinearOrderedField K]

/-- The time of intersection times the denominator is the numerator. -/
theorem timeOfIntersectPlaneLine_mul (V P0 N Pf : Vector3 K) (t : K)
    (h : timeOfIntersectPlaneLine V P0 N Pf = some t) :
    t * N.dot V = -(N.dot (P0.sub Pf)) := by
  have hne := timeOfIntersectPlaneLine_some V P0 N Pf t h
  have hne' : N.x * V.x + N.y * V.y + N.z * V.z ≠ 0 := hne
  simp only [timeOfIntersectPlaneLine, if_neg hne', Option.some.injEq] at h
  rw [← h]
  simp only [Vector3.dot, Vector3.sub]
  field_simp
  ring

/-- The forward loop: a vertex at `P0` of `obj1`, moved by the constrained
velocity `V * min(t, 1)` of its hit, is on or in front of the plane of the
face it hit. -/
theorem forward_hit_in_front (V P0 N Pf : Vector3 K) (t : K)
    (h : timeOfIntersectPlaneLine V P0 N Pf = some t) (hdot : N.dot V ≤ 0) :
    0 ≤ N.dot ((P0.add (V.multiplyScalar (if t > 1 then 1 else t))).sub Pf) := by
  have hne := timeOfIntersectPlaneLine_some V P0 N Pf t h
  have hmul := timeOfIntersectPlaneLine_mul V P0 N Pf t h
  have hlt : N.dot V < 0 := lt_of_le_of_ne hdot hne
  have e : ∀ s : K, N.dot ((P0.add (V.multiplyScalar s)).sub Pf)
      = (s - t) * N.dot V := by
    intro s
    have : N.dot ((P0.add (V.multiplyScalar s)).sub Pf)
        = N.dot (P0.sub Pf) + s * N.dot V := by
      simp only [Vector3.dot, Vector3.sub, Vector3.add, Vector3.multiplyScalar]
      ring
    rw [this]
    linear_combination hmul
  rw [e]
  split
  · rename_i h1
    exact mul_nonneg_of_nonpos_of_nonpos (by linarith [gt_iff_lt.mp h1]) (le_of_lt hlt)
  · simp

/-- The reverse loop: a vertex at `Q` of `obj2` that meets a face of `obj1`
(plane through `Pf`, normal `N`) at time `t` of the relative motion `-vel`;
after `obj1` is moved by the constrained velocity `vel * (1 - min(t, 1))`
of that hit, the signed distance of `Q` from the plane is
`(t + min(t, 1) - 1) * (N·vel)`, negative when `t < 1/2`. -/
theorem reverse_hit_distance (vel Q N Pf : Vector3 K) (t : K)
    (h : timeOfIntersectPlaneLine (vel.multiplyScalar (-1)) Q N Pf = some t) :
    N.dot (Q.sub (Pf.add ((vel.multiplyScalar (-1)).multiplyScalar
        (-1 * (1 - (if t > 1 then 1 else t))))))
      = (t + (if t > 1 then 1 else t) - 1) * N.dot vel := by
  have hmul := timeOfIntersectPlaneLine_mul _ Q N Pf t h
  have e1 : N.dot (vel.multiplyScalar (-1)) = -(N.dot vel) := by
    simp only [Vector3.dot, Vector3.multiplyScalar]
    ring
  rw [e1] at hmul
  have e2 : ∀ s : K, N.dot (Q.sub (Pf.add ((vel.multiplyScalar (-1)).multiplyScalar
      (-1 * (1 - s))))) = N.dot (Q.sub Pf) - (1 - s) * N.dot vel := by
    intro s
    simp only [Vector3.dot, Vector3.sub, Vector3.add, Vector3.multiplyScalar]
    ring
  rw [e2]
  linear_combination hmul

end Penetration

/-! ### applyForce -/

section ApplyForce
variable {K : Type} [LinearOrderedField K]

/-- C12: `applyForce(force)` returns normally whatever the callback does: if
`force(position, mass)` throws, the body is unchanged; if it returns a
`ForceVector` and the body is active, exactly that contribution is appended
to the end of the queue and nothing else changes; if it returns anything
else, the body is unchanged. -/
theorem applyForce_spec (obj : GameObject K) (force : ForceFn K) :
    (force obj.position obj.mass = ForceResult.threw → obj.applyForce force = obj) ∧
    (∀ forceVector, force obj.position obj.mass = ForceResult.vector forceVector →
      obj.needsUpdate = true →
      obj.applyForce force = { obj with forces := obj.forces ++ [forceVector] }) ∧
    (force obj.position obj.mass = ForceResult.other → obj.applyForce force = obj) := by
  refine ⟨?_, ?_, ?_⟩
  · intro h
    simp only [GameObject.applyForce, h]
  · intro forceVector h hact
    simp only [GameObject.applyForce, h, hact, if_true]
  · intro h
    simp only [GameObject.applyForce, h]

/-- C12, at the active ball `pushedBall` and the gravity source: the
contribution `(0, -9.8 * 2, 0)` is appended to its queue. -/
theorem applyForce_spec_witness :
    gravity (pushedBall : GameObject ℚ).position (pushedBall : GameObject ℚ).mass
      = ForceResult.vector ⟨⟨0, -(98 / 10) * 2, 0⟩, ⟨0, 0, 0⟩⟩ ∧
    (pushedBall : GameObject ℚ).needsUpdate = true ∧
    (pushedBall : GameObject ℚ).applyForce gravity
      = { (pushedBall : GameObject ℚ) with
          forces := (pushedBall : GameObject ℚ).forces
            ++ [⟨⟨0, -(98 / 10) * 2, 0⟩, ⟨0, 0, 0⟩⟩] } :=
  ⟨rfl, rfl, (applyForce_spec (pushedBall : GameObject ℚ) gravity).2.1 _ rfl rfl⟩

end ApplyForce

/-! ### The registry -/

section Registry
variable {α : Type} [DecidableEq α]

/-- `removeObject` erases the first occurrence of the object. -/
theorem removeObject_eq_erase (object : α) (objects : List α) :
    removeObject object objects = objects.erase object := by
  unfold removeObject jsIndexOf
  by_cases h : object ∈ objects
  · have hlt : List.indexOf object objects < objects.length := List.indexOf_lt_length.mpr h
    simp only [if_pos hlt]
    have hne : ((List.indexOf object objects : ℕ) : Int) ≠ -1 := by omega
    rw [if_pos hne, Int.toNat_ofNat, List.eraseIdx_indexOf_eq_erase]
  · have hge : ¬ List.indexOf object objects < objects.length := by
      rw [List.indexOf_lt_length]
      exact h
    simp only [if_neg hge]
    simp [List.erase_of_not_mem h]

/-- C14: `removeObject` leaves the registry unchanged when the object is not
in it; when the object is in it, exactly its first occurrence is removed and
the other entries keep their order; and `removeObject` right after
`addObject` on a registry that did not hold the object restores it. -/
theorem removeObject_spec (object : α) (objects : List α) :
    (object ∉ objects → removeObject object objects = objects) ∧
    (object ∈ objects →
      ∃ before after, objects = before ++ object :: after ∧ object ∉ before ∧
        removeObject object objects = before ++ after) ∧
    (object ∉ objects → removeObject object (addObject object objects) = objects) := by
  refine ⟨?_, ?_, ?_⟩
  · intro h
    rw [removeObject_eq_erase, List.erase_of_not_mem h]
  · intro h
    obtain ⟨l₁, l₂, h1, h2, h3⟩ := List.exists_erase_eq h
    exact ⟨l₁, l₂, h2, h1, by rw [removeObject_eq_erase, h3]⟩
  · intro h
    rw [removeObject_eq_erase, addObject, List.erase_append_right _ h]
    simp

end Registry

/-- C14, at the registry `[3, 5, 7, 5]` and the objects `5` (present twice)
and `9` (absent). -/
theorem removeObject_spec_witness :
    (5 : ℕ) ∈ [3, 5, 7, 5] ∧ (9 : ℕ) ∉ [3, 5, 7, 5] ∧
    (∃ before after, [3, 5, 7, 5] = before ++ (5 : ℕ) :: after ∧ 5 ∉ before ∧
      removeObject 5 [3, 5, 7, 5] = before ++ after) ∧
    removeObject (9 : ℕ) [3, 5, 7, 5] = [3, 5, 7, 5] ∧
    removeObject (9 : ℕ) (addObject 9 [3, 5, 7, 5]) = [3, 5, 7, 5] :=
  ⟨by decide, by decide,
   (removeObject_spec (5 : ℕ) [3, 5, 7, 5]).2.1 (by decide),
   (removeObject_spec (9 : ℕ) [3, 5, 7, 5]).1 (by decide),
   (removeObject_spec (9 : ℕ) [3, 5, 7, 5]).2.2 (by decide)⟩

/-! ### Momentum of the impulse -/

section Momentum
variable {K : Type} [LinearOrderedField K]

/-- The outgoing speeds conserve momentum. -/
theorem speedAfter_momentum (mA mB vai vbi : K) (h : mA + mB ≠ 0) :
    mA * speedAfterA mA mB vai vbi + mB * speedAfterB mA mB vai vbi = mA * vai + mB * vbi := by
  unfold speedAfterA speedAfterB
  field_simp
  ring

/-- C16: for all masses with `mA + mB ≠ 0` the outgoing speeds computed in
`constrainCollisions` satisfy `mA·vaf + mB·vbf = mA·vai + mB·vbi`; and when a
contact is found between two active bodies of equal elasticity (and
`mA + mB ≠ 0`), `constrainCollisions` appends one force contribution to each
queue, and the two forces add up to the zero vector. -/
theorem impulse_momentum (L : Three K) :
    (∀ mA mB vai vbi : K, mA + mB ≠ 0 →
      mA * speedAfterA mA mB vai vbi + mB * speedAfterB mA mB vai vbi
        = mA * vai + mB * vbi) ∧
    (∀ (vel : Vector3 K) (objRot : Euler K) (obj1 obj2 : GameObject K),
      obj1.needsUpdate = true → obj2.needsUpdate = true →
      obj1.elasticity = obj2.elasticity → obj1.mass + obj2.mass ≠ 0 →
      (narrowPhase L vel objRot obj1 obj2).contactPoint ≠ none →
      ∃ fA fB : ForceVector K,
        (constrainCollisions L vel objRot obj1 obj2).2.1.forces = obj1.forces ++ [fA] ∧
        (constrainCollisions L vel objRot obj1 obj2).2.2.forces = obj2.forces ++ [fB] ∧
        fA.force.add fB.force = ⟨0, 0, 0⟩) := by
  refine ⟨speedAfter_momentum, ?_⟩
  intro vel objRot obj1 obj2 h1 h2 he hm hc
  obtain ⟨cp, hcp⟩ := Option.ne_none_iff_exists'.mp hc
  simp only [constrainCollisions, hcp, GameObject.applyForce, h1, h2, if_true]
  refine ⟨_, _, rfl, rfl, ?_⟩
  have hmom := speedAfter_momentum obj1.mass obj2.mass
    (L.cos (L.PI - L.angleTo vel (narrowPhase L vel objRot obj1 obj2).normalForce)
      * L.length vel * 1000)
    (L.cos (L.PI - L.angleTo obj2.velocity (narrowPhase L vel objRot obj1 obj2).normalForce)
      * L.length obj2.velocity * 1000) hm
  simp only [Vector3.add, Vector3.multiplyScalar, Vector3.mk.injEq, he]
  generalize normalize L (narrowPhase L vel objRot obj1 obj2).normalForce = N
  refine ⟨?_, ?_, ?_⟩
  · linear_combination (-N.x * obj2.elasticity) * hmom
  · linear_combination (-N.y * obj2.elasticity) * hmom
  · linear_combination (-N.z * obj2.elasticity) * hmom

end Momentum

/-- C16, at the active bodies `onePoint` and `risingPlate` (masses 1,
elasticities 1) meeting head-on. -/
theorem impulse_momentum_witness :
    (onePoint : GameObject ℝ).needsUpdate = true ∧
    (risingPlate : GameObject ℝ).needsUpdate = true ∧
    (onePoint : GameObject ℝ).elasticity = (risingPlate : GameObject ℝ).elasticity ∧
    (onePoint : GameObject ℝ).mass + (risingPlate : GameObject ℝ).mass ≠ 0 ∧
    (narrowPhase three (onePoint : GameObject ℝ).velocity ⟨0, 0, 0⟩ onePoint
      risingPlate).contactPoint ≠ none ∧
    ∃ fA fB : ForceVector ℝ,
      (constrainCollisions three (onePoint : GameObject ℝ).velocity ⟨0, 0, 0⟩ onePoint
        risingPlate).2.1.forces = (onePoint : GameObject ℝ).forces ++ [fA] ∧
      (constrainCollisions three (onePoint : GameObject ℝ).velocity ⟨0, 0, 0⟩ onePoint
        risingPlate).2.2.forces = (risingPlate : GameObject ℝ).forces ++ [fB] ∧
      fA.force.add fB.force = ⟨0, 0, 0⟩ :=
  have hm : (onePoint : GameObject ℝ).mass + (risingPlate : GameObject ℝ).mass ≠ 0 := by
    norm_num [onePoint, risingPlate, bodyOf]
  ⟨rfl, rfl, rfl, hm, narrowPhase_onePoint_rising,
   (impulse_momentum three).2 _ _ onePoint risingPlate rfl rfl rfl hm
     narrowPhase_onePoint_rising⟩

/-! ### Faces that are not approached -/

section Parallel
variable {K : Type} [LinearOrderedField K]

/-- A zero denominator `N·V` makes the time of intersection non-finite. -/
theorem timeOfIntersectPlaneLine_none (V P0 N Pf : Vector3 K) (h : N.dot V = 0) :
    timeOfIntersectPlaneLine V P0 N Pf = none := by
  have h' : N.x * V.x + N.y * V.y + N.z * V.z = 0 := h
  simp [timeOfIntersectPlaneLine, h']

/-- What `forwardFace` does after the call traced by `forwardFaceCall`: no
call, or a non-finite time, leaves the state of the loops unchanged. -/
theorem forwardFace_of_call (L : Three K) (obj2 : GameObject K) (velocity point : Vector3 K)
    (s : Contact K) (face : Face K obj2.geoBound.vertices.length) :
    (forwardFaceCall L obj2 velocity point face = none →
      forwardFace L obj2 velocity point s face = s) ∧
    (∀ V P N Pf, forwardFaceCall L obj2 velocity point face = some (V, P, N, Pf) →
      timeOfIntersectPlaneLine V P N Pf = none →
      forwardFace L obj2 velocity point s face = s) := by
  by_cases hle : (L.applyEuler face.normal obj2.rotation).dot velocity ≤ 0
  · constructor
    · intro h
      simp [forwardFaceCall, hle] at h
    · intro V P N Pf h ht
      simp only [forwardFaceCall, if_pos hle, Option.some.injEq, Prod.mk.injEq] at h
      obtain ⟨h1, h2, h3, h4⟩ := h
      subst h1 h2 h3 h4
      simp only [forwardFace, if_pos hle, ht]
  · constructor
    · intro _
      simp only [forwardFace, if_neg hle]
    · intro V P N Pf h
      simp [forwardFaceCall, hle] at h

/-- What `reverseFace` does after the call traced by `reverseFaceCall`. -/
theorem reverseFace_of_call (L : Three K) (obj1 obj2 : GameObject K)
    (vertex velocity : Vector3 K) (s : Contact K)
    (face : Face K obj1.geoBound.vertices.length) :
    (reverseFaceCall L obj1 obj2 vertex velocity face = none →
      reverseFace L obj1 obj2 vertex velocity s face = s) ∧
    (∀ V P N Pf, reverseFaceCall L obj1 obj2 vertex velocity face = some (V, P, N, Pf) →
      timeOfIntersectPlaneLine V P N Pf = none →
      reverseFace L obj1 obj2 vertex velocity s face = s) := by
  by_cases hle : (L.applyEuler face.normal obj1.rotation).dot velocity ≤ 0
  · constructor
    · intro h
      simp [reverseFaceCall, hle] at h
    · intro V P N Pf h ht
      simp only [reverseFaceCall, if_pos hle, Option.some.injEq, Prod.mk.injEq] at h
      obtain ⟨h1, h2, h3, h4⟩ := h
      subst h1 h2 h3 h4
      simp only [reverseFace, if_pos hle, ht]
  · constructor
    · intro _
      simp only [reverseFace, if_neg hle]
    · intro V P N Pf h
      simp [reverseFaceCall, hle] at h

/-- C11 (amended): in both loops of `constrainCollisions`, a (vertex, face)
pair whose rotated face normal has `N·V ≥ 0` never becomes the contact (the
state of the loops is unchanged); when `N·V > 0` the pair is rejected before
the time of intersection is computed, and when `N·V = 0` it passes the test
`<= 0` and `timeOfIntersectPlaneLine` is called with the zero denominator
`N·V`, giving a non-finite time that fails the window test. -/
theorem nonapproaching_face_rejected (L : Three K) :
    (∀ (obj2 : GameObject K) (velocity point : Vector3 K) (s : Contact K)
        (face : Face K obj2.geoBound.vertices.length),
      0 ≤ (L.applyEuler face.normal obj2.rotation).dot velocity →
      forwardFace L obj2 velocity point s face = s ∧
      (0 < (L.applyEuler face.normal obj2.rotation).dot velocity →
        forwardFaceCall L obj2 velocity point face = none) ∧
      ((L.applyEuler face.normal obj2.rotation).dot velocity = 0 →
        ∃ V P N Pf, forwardFaceCall L obj2 velocity point face = some (V, P, N, Pf) ∧
          N.dot V = 0 ∧ timeOfIntersectPlaneLine V P N Pf = none)) ∧
    (∀ (obj1 obj2 : GameObject K) (vertex velocity : Vector3 K) (s : Contact K)
        (face : Face K obj1.geoBound.vertices.length),
      0 ≤ (L.applyEuler face.normal obj1.rotation).dot velocity →
      reverseFace L obj1 obj2 vertex velocity s face = s ∧
      (0 < (L.applyEuler face.normal obj1.rotation).dot velocity →
        reverseFaceCall L obj1 obj2 vertex velocity face = none) ∧
      ((L.applyEuler face.normal obj1.rotation).dot velocity = 0 →
        ∃ V P N Pf, reverseFaceCall L obj1 obj2 vertex velocity face = some (V, P, N, Pf) ∧
          N.dot V = 0 ∧ timeOfIntersectPlaneLine V P N Pf = none)) := by
  constructor
  · intro obj2 velocity point s face h
    have hpos : 0 < (L.applyEuler face.normal obj2.rotation).dot velocity →
        forwardFaceCall L obj2 velocity point face = none := by
      intro hlt
      simp only [forwardFaceCall, if_neg (not_le.mpr hlt)]
    have hzero : (L.applyEuler face.normal obj2.rotation).dot velocity = 0 →
        ∃ V P N Pf, forwardFaceCall L obj2 velocity point face = some (V, P, N, Pf) ∧
          N.dot V = 0 ∧ timeOfIntersectPlaneLine V P N Pf = none := by
      intro h0
      refine ⟨velocity, point, L.applyEuler face.normal obj2.rotation,
        (L.applyEuler (obj2.geoBound.vertices.get face.a) obj2.rotation).add obj2.position,
        ?_, h0, timeOfIntersectPlaneLine_none _ _ _ _ h0⟩
      simp only [forwardFaceCall, if_pos (le_of_eq h0)]
    refine ⟨?_, hpos, hzero⟩
    rcases lt_or_eq_of_le h with hlt | heq
    · exact (forwardFace_of_call L obj2 velocity point s face).1 (hpos hlt)
    · obtain ⟨V, P, N, Pf, hcall, _, hnone⟩ := hzero heq.symm
      exact (forwardFace_of_call L obj2 velocity point s face).2 V P N Pf hcall hnone
  · intro obj1 obj2 vertex velocity s face h
    have hpos : 0 < (L.applyEuler face.normal obj1.rotation).dot velocity →
        reverseFaceCall L obj1 obj2 vertex velocity face = none := by
      intro hlt
      simp only [reverseFaceCall, if_neg (not_le.mpr hlt)]
    have hzero : (L.applyEuler face.normal obj1.rotation).dot velocity = 0 →
        ∃ V P N Pf, reverseFaceCall L obj1 obj2 vertex velocity face = some (V, P, N, Pf) ∧
          N.dot V = 0 ∧ timeOfIntersectPlaneLine V P N Pf = none := by
      intro h0
      refine ⟨velocity, (L.applyEuler vertex obj2.rotation).add obj2.position,
        L.applyEuler face.normal obj1.rotation,
        (L.applyEuler (obj1.geoBound.vertices.get face.a) obj1.rotation).add obj1.position,
        ?_, h0, timeOfIntersectPlaneLine_none _ _ _ _ h0⟩
      simp only [reverseFaceCall, if_pos (le_of_eq h0)]
    refine ⟨?_, hpos, hzero⟩
    rcases lt_or_eq_of_le h with hlt | heq
    · exact (reverseFace_of_call L obj1 obj2 vertex velocity s face).1 (hpos hlt)
    · obtain ⟨V, P, N, Pf, hcall, _, hnone⟩ := hzero heq.symm
      exact (reverseFace_of_call L obj1 obj2 vertex velocity s face).2 V P N Pf hcall hnone

end Parallel

/-- The rotated normal of the face of `plate` is `(0, 0, 1)`. -/
theorem plateFace_normal :
    three.applyEuler (plateFace : Face ℝ _).normal (plate : GameObject ℝ).rotation
      = ⟨0, 0, 1⟩ := by
  simp [plateFace, plate, bodyOf, three_applyEuler_zero]

/-- C11 (amended), at the face of `plate` (normal `(0, 0, 1)`) and a vertex
at `(0, 1, 1/4)` moving away by `(0, 0, 1)`. -/
theorem nonapproaching_face_rejected_witness :
    (0 : ℝ) ≤ (three.applyEuler (plateFace : Face ℝ _).normal
      (plate : GameObject ℝ).rotation).dot ⟨0, 0, 1⟩ ∧
    forwardFace three (plate : GameObject ℝ) ⟨0, 0, 1⟩ ⟨0, 1, 1 / 4⟩
      ⟨2, ⟨0, 0, 0⟩, none, ⟨0, 0, 1⟩⟩ plateFace = ⟨2, ⟨0, 0, 0⟩, none, ⟨0, 0, 1⟩⟩ :=
  have h : (0 : ℝ) ≤ (three.applyEuler (plateFace : Face ℝ _).normal
      (plate : GameObject ℝ).rotation).dot ⟨0, 0, 1⟩ := by
    rw [plateFace_normal]
    norm_num [Vector3.dot]
  ⟨h, ((nonapproaching_face_rejected three).1 plate ⟨0, 0, 1⟩ ⟨0, 1, 1 / 4⟩
    ⟨2, ⟨0, 0, 0⟩, none, ⟨0, 0, 1⟩⟩ plateFace h).1⟩

/-- C11, as stated, fails in the parallel case: for the face of `plate`
(normal `N = (0, 0, 1)`) and a vertex at `(0, 1, 1/4)` moving by
`V = (1, 0, 0)`, `N·V = 0`, the face is not rejected by the test
`faceNormal.dot(velocity) <= 0`, and `timeOfIntersectPlaneLine` is called
with the zero denominator `N·V`; its result is not finite. -/
theorem parallel_face_time_evaluated :
    (three.applyEuler (plateFace : Face ℝ _).normal (plate : GameObject ℝ).rotation).dot
      ⟨1, 0, 0⟩ = 0 ∧
    forwardFaceCall three (plate : GameObject ℝ) ⟨1, 0, 0⟩ ⟨0, 1, 1 / 4⟩ plateFace
      = some (⟨1, 0, 0⟩, ⟨0, 1, 1 / 4⟩, ⟨0, 0, 1⟩, ⟨0, 0, 0⟩) ∧
    Vector3.dot (⟨0, 0, 1⟩ : Vector3 ℝ) ⟨1, 0, 0⟩ = 0 ∧
    timeOfIntersectPlaneLine (⟨1, 0, 0⟩ : Vector3 ℝ) ⟨0, 1, 1 / 4⟩ ⟨0, 0, 1⟩ ⟨0, 0, 0⟩
      = none := by
  refine ⟨?_, ?_, ?_, ?_⟩
  · rw [plateFace_normal]
    norm_num [Vector3.dot]
  · simp [forwardFaceCall, plateFace, plate, bodyOf, triangleGeometry, three_applyEuler_zero,
      Vector3.dot, Vector3.add]
  · norm_num [Vector3.dot]
  · exact timeOfIntersectPlaneLine_none _ _ _ _ (by norm_num [Vector3.dot])

/-! ### What a tick keeps of every body -/

section TickFrame
variable {K : Type} [LinearOrderedField K] {β : Type}

/-- `constrainCollisions` returns the two bodies as they are, or each after
one `applyForce`. -/
theorem constrainCollisions_bodies (L : Three K) (vel : Vector3 K) (objRot : Euler K)
    (obj1 obj2 : GameObject K) :
    ((constrainCollisions L vel objRot obj1 obj2).2.1 = obj1 ∧
      (constrainCollisions L vel objRot obj1 obj2).2.2 = obj2) ∨
    ∃ f1 f2 : ForceFn K,
      (constrainCollisions L vel objRot obj1 obj2).2.1 = obj1.applyForce f1 ∧
      (constrainCollisions L vel objRot obj1 obj2).2.2 = obj2.applyForce f2 := by
  cases h : (narrowPhase L vel objRot obj1 obj2).contactPoint with
  | none =>
    left
    unfold constrainCollisions
    dsimp only
    rw [h]
    exact ⟨rfl, rfl⟩
  | some contactPoint =>
    right
    unfold constrainCollisions
    dsimp only
    rw [h]
    dsimp only
    exact ⟨_, _, rfl, rfl⟩

/-- A quantity that `applyForce` keeps is kept by `constrainCollisions`. -/
theorem constrainCollisions_keeps (g : GameObject K → β)
    (hg : ∀ (obj : GameObject K) (force : ForceFn K), g (obj.applyForce force) = g obj)
    (L : Three K) (vel : Vector3 K) (objRot : Euler K) (obj1 obj2 : GameObject K) :
    g (constrainCollisions L vel objRot obj1 obj2).2.1 = g obj1 ∧
    g (constrainCollisions L vel objRot obj1 obj2).2.2 = g obj2 := by
  rcases constrainCollisions_bodies L vel objRot obj1 obj2 with ⟨h1, h2⟩ | ⟨f1, f2, h1, h2⟩
  · rw [h1, h2]
    exact ⟨rfl, rfl⟩
  · rw [h1, h2]
    exact ⟨hg _ _, hg _ _⟩

/-- The second component of what `constrainCollisions` returns is `objRot`. -/
theorem constrainCollisions_rotation (L : Three K) (vel : Vector3 K) (objRot : Euler K)
    (obj1 obj2 : GameObject K) : (constrainCollisions L vel objRot obj1 obj2).1.2 = objRot := by
  simp only [constrainCollisions]
  cases (narrowPhase L vel objRot obj1 obj2).contactPoint <;> rfl

/-- A quantity that `applyForce` keeps is kept, for every body, by one pair test. -/
theorem collideWith_map (g : GameObject K → β)
    (hg : ∀ (obj : GameObject K) (force : ForceFn K), g (obj.applyForce force) = g obj)
    (L : Three K) (i j : Nat) (st : List (GameObject K) × Vector3 K × Euler K) :
    (collideWith L i st j).1.map g = st.1.map g := by
  unfold collideWith
  split
  · rfl
  · rename_i hij
    split
    · rename_i obj1 obj2 h1 h2
      dsimp only
      split
      · have h2' : (st.1.set i (constrainCollisions L st.2.1 st.2.2 obj1 obj2).2.1)[j]?
            = some obj2 := by
          rw [List.getElem?_set_ne hij]
          exact h2
        obtain ⟨k1, k2⟩ := constrainCollisions_keeps g hg L st.2.1 st.2.2 obj1 obj2
        rw [map_set_same g _ j _ obj2 h2' k2, map_set_same g _ i _ obj1 h1 k1]
      · rfl
    · rfl

/-- One pair test leaves `rotVector` as it is. -/
theorem collideWith_rot (L : Three K) (i j : Nat)
    (st : List (GameObject K) × Vector3 K × Euler K) :
    (collideWith L i st j).2.2 = st.2.2 := by
  unfold collideWith
  split
  · rfl
  · split
    · dsimp only
      split
      · rw [constrainCollisions_rotation]
        simp
      · rfl
    · rfl

/-- The loop over `j` keeps, for every body, a quantity that `applyForce`
keeps, and leaves `rotVector` as it is. -/
theorem foldl_collideWith_map (g : GameObject K → β)
    (hg : ∀ (obj : GameObject K) (force : ForceFn K), g (obj.applyForce force) = g obj)
    (L : Three K) (i : Nat) (js : List Nat) (st : List (GameObject K) × Vector3 K × Euler K) :
    (js.foldl (collideWith L i) st).1.map g = st.1.map g ∧
    (js.foldl (collideWith L i) st).2.2 = st.2.2 := by
  induction js generalizing st with
  | nil => exact ⟨rfl, rfl⟩
  | cons j js ih =>
    rw [List.foldl_cons]
    obtain ⟨h1, h2⟩ := ih (collideWith L i st j)
    exact ⟨h1.trans (collideWith_map g hg L i j st), h2.trans (collideWith_rot L i j st)⟩

/-- `applyForce` keeps `needsUpdate`. -/
theorem applyForce_needsUpdate (obj : GameObject K) (force : ForceFn K) :
    (obj.applyForce force).needsUpdate = obj.needsUpdate := by
  unfold GameObject.applyForce
  split
  · split <;> rfl
  · rfl
  · rfl

/-- Applying the world forces keeps what `applyForce` keeps. -/
theorem foldl_applyForce_keeps (g : GameObject K → β)
    (hg : ∀ (obj : GameObject K) (force : ForceFn K), g (obj.applyForce force) = g obj)
    (forces : List (ForceFn K)) (obj : GameObject K) :
    g (forces.foldl GameObject.applyForce obj) = g obj := by
  induction forces generalizing obj with
  | nil => rfl
  | cons f fs ih => rw [List.foldl_cons, ih, hg]

/-- The turn of `objects[i]` before `rotate` and `move` keeps, for every
body, a quantity that `applyForce` keeps and that `updateVelocity` keeps on
active bodies; and `rotVector` is the body's `rotationalVelocity`. -/
theorem turnMotion_map (g : GameObject K → β)
    (hg : ∀ (obj : GameObject K) (force : ForceFn K), g (obj.applyForce force) = g obj)
    (hu : ∀ (obj : GameObject K) (ms : K), obj.needsUpdate = true →
      g (obj.updateVelocity ms) = g obj)
    (L : Three K) (ms : K) (params : Params K) (objects : List (GameObject K)) (i : Nat)
    (obj1 : GameObject K) (h : objects[i]? = some obj1) :
    (turnMotion L ms params objects i obj1).1.map g = objects.map g ∧
    (turnMotion L ms params objects i obj1).2.2 = obj1.rotationalVelocity := by
  unfold turnMotion
  split
  · rename_i hact
    obtain ⟨h1, h2⟩ := foldl_collideWith_map g hg L i (List.range objects.length)
      (objects.set i
        (GameObject.updateVelocity
          (match params.worldForces with
            | some worldForces => worldForces.foldl GameObject.applyForce obj1
            | none => obj1) ms), obj1.velocity, obj1.rotationalVelocity)
    refine ⟨h1.trans ?_, h2⟩
    apply map_set_same g objects i _ obj1 h
    have hobj : g (match params.worldForces with
            | some worldForces => worldForces.foldl GameObject.applyForce obj1
            | none => obj1) = g obj1 ∧
        (match params.worldForces with
            | some worldForces => worldForces.foldl GameObject.applyForce obj1
            | none => obj1).needsUpdate = true := by
      split
      · exact ⟨foldl_applyForce_keeps g hg _ _,
          (foldl_applyForce_keeps GameObject.needsUpdate applyForce_needsUpdate _ _).trans hact⟩
      · exact ⟨rfl, hact⟩
    rw [hu _ _ hobj.2, hobj.1]
  · exact ⟨rfl, rfl⟩

/-- The turn of `objects[i]`: the registry after it is the registry before
`rotate` and `move` with the body `o` at `i` rotated and moved. -/
theorem bodyTurn_eq (L : Three K) (ms : K) (params : Params K)
    (objects : List (GameObject K)) (i : Nat) (obj1 : GameObject K)
    (h : objects[i]? = some obj1) :
    ∃ o, (turnMotion L ms params objects i obj1).1[i]? = some o ∧
      bodyTurn L ms params objects i
        = (turnMotion L ms params objects i obj1).1.set i
            ((o.rotate (turnMotion L ms params objects i obj1).2.2).move
              (turnMotion L ms params objects i obj1).2.1) := by
  have hlen : ((turnMotion L ms params objects i obj1).1.map GameObject.needsUpdate).length
      = (objects.map GameObject.needsUpdate).length := by
    rw [(turnMotion_map GameObject.needsUpdate applyForce_needsUpdate (fun _ _ _ => rfl)
      L ms params objects i obj1 h).1]
  simp only [List.length_map] at hlen
  obtain ⟨hlt, _⟩ := List.getElem?_eq_some.mp h
  have hlt' : i < (turnMotion L ms params objects i obj1).1.length := by omega
  refine ⟨(turnMotion L ms params objects i obj1).1[i], List.getElem?_eq_getElem hlt', ?_⟩
  simp only [bodyTurn, h, List.getElem?_eq_getElem hlt']

/-- The turn of `objects[i]` keeps, for every body, a quantity that
`applyForce`, `updateVelocity` on active bodies, `rotate` and `move` keep. -/
theorem bodyTurn_map (g : GameObject K → β)
    (hg : ∀ (obj : GameObject K) (force : ForceFn K), g (obj.applyForce force) = g obj)
    (hu : ∀ (obj : GameObject K) (ms : K), obj.needsUpdate = true →
      g (obj.updateVelocity ms) = g obj)
    (hm : ∀ (obj : GameObject K) (euler : Euler K) (vector : Vector3 K),
      g ((obj.rotate euler).move vector) = g obj)
    (L : Three K) (ms : K) (params : Params K) (objects : List (GameObject K)) (i : Nat) :
    (bodyTurn L ms params objects i).map g = objects.map g := by
  cases h : objects[i]? with
  | none => simp only [bodyTurn, h]
  | some obj1 =>
    obtain ⟨o, ho, heq⟩ := bodyTurn_eq L ms params objects i obj1 h
    rw [heq, map_set_same g _ i _ o ho (hm _ _ _)]
    exact (turnMotion_map g hg hu L ms params objects i obj1 h).1

/-- `updatePhysics` keeps, for every body, a quantity that `applyForce`,
`updateVelocity` on active bodies, `rotate` and `move` keep. -/
theorem updatePhysics_map (g : GameObject K → β)
    (hg : ∀ (obj : GameObject K) (force : ForceFn K), g (obj.applyForce force) = g obj)
    (hu : ∀ (obj : GameObject K) (ms : K), obj.needsUpdate = true →
      g (obj.updateVelocity ms) = g obj)
    (hm : ∀ (obj : GameObject K) (euler : Euler K) (vector : Vector3 K),
      g ((obj.rotate euler).move vector) = g obj)
    (L : Three K) (objects : List (GameObject K)) (ms : K) (params : Params K) :
    (updatePhysics L objects ms params).map g = objects.map g := by
  unfold updatePhysics
  dsimp only
  exact foldl_keeps (fun objs : List (GameObject K) => objs.map g = objects.map g) _
    (fun objs i hobjs => (bodyTurn_map g hg hu hm L _ params objs i).trans hobjs)
    _ objects rfl

end TickFrame

section TickClaims
variable {K : Type} [LinearOrderedField K]

/-- `applyForce` returns the body as it is or with one more queued force. -/
theorem applyForce_cases (obj : GameObject K) (force : ForceFn K) :
    obj.applyForce force = obj ∨
    ∃ forceVector, obj.needsUpdate = true ∧
      obj.applyForce force = { obj with forces := obj.forces ++ [forceVector] } := by
  unfold GameObject.applyForce
  split
  · rename_i forceVector _
    by_cases h : obj.needsUpdate = true
    · exact Or.inr ⟨forceVector, h, by rw [if_pos h]⟩
    · exact Or.inl (by rw [if_neg h])
  · exact Or.inl rfl
  · exact Or.inl rfl

/-- C15: one call of `updatePhysics` leaves, for every body of the registry,
the geometry (vertices, face indices, face normals, bounding sphere), the
mass and the elasticity unchanged, and also `needsUpdate` and
`rotationalVelocity`: only position, rotation, velocity and the pending-force
queue may change. -/
theorem updatePhysics_keeps_geometry (L : Three K) (objects : List (GameObject K)) (ms : K)
    (params : Params K) :
    (updatePhysics L objects ms params).map GameObject.geoBound
      = objects.map GameObject.geoBound ∧
    (updatePhysics L objects ms params).map GameObject.mass = objects.map GameObject.mass ∧
    (updatePhysics L objects ms params).map GameObject.elasticity
      = objects.map GameObject.elasticity ∧
    (updatePhysics L objects ms params).map GameObject.needsUpdate
      = objects.map GameObject.needsUpdate ∧
    (updatePhysics L objects ms params).map GameObject.rotationalVelocity
      = objects.map GameObject.rotationalVelocity := by
  have key : ∀ {β : Type} (g : GameObject K → β),
      (∀ (obj : GameObject K) (forces : List (ForceVector K)),
        g { obj with forces := forces } = g obj) →
      (∀ (obj : GameObject K) (ms : K), g (obj.updateVelocity ms) = g obj) →
      (∀ (obj : GameObject K) (euler : Euler K) (vector : Vector3 K),
        g ((obj.rotate euler).move vector) = g obj) →
      (updatePhysics L objects ms params).map g = objects.map g := by
    intro β g hf hu hm
    apply updatePhysics_map g _ (fun obj ms _ => hu obj ms) hm
    intro obj force
    rcases applyForce_cases obj force with h | ⟨fv, _, h⟩
    · rw [h]
    · rw [h]
      exact hf obj _
  exact ⟨key _ (fun _ _ => rfl) (fun _ _ => rfl) (fun _ _ _ => rfl),
    key _ (fun _ _ => rfl) (fun _ _ => rfl) (fun _ _ _ => rfl),
    key _ (fun _ _ => rfl) (fun _ _ => rfl) (fun _ _ _ => rfl),
    key _ (fun _ _ => rfl) (fun _ _ => rfl) (fun _ _ _ => rfl),
    key _ (fun _ _ => rfl) (fun _ _ => rfl) (fun _ _ _ => rfl)⟩

/-- The loops of `constrainCollisions` do not read `obj2.needsUpdate`. -/
theorem narrowPhase_needsUpdate (L : Three K) (vel : Vector3 K) (objRot : Euler K)
    (obj1 obj2 : GameObject K) (active : Bool) :
    narrowPhase L vel objRot obj1 { obj2 with needsUpdate := active }
      = narrowPhase L vel objRot obj1 obj2 := rfl

/-- One pair test gives the same `velVector` and `rotVector` whether the
body `objects[j]` it tests against is inactive or active. -/
theorem collideWith_needsUpdate (L : Three K) (i j : Nat)
    (st : List (GameObject K) × Vector3 K × Euler K) (body : GameObject K)
    (hj : st.1[j]? = some body) :
    (collideWith L i (st.1.set j { body with needsUpdate := true }, st.2) j).2
      = (collideWith L i st j).2 := by
  obtain ⟨hlt, _⟩ := List.getElem?_eq_some.mp hj
  unfold collideWith
  by_cases hij : i = j
  · simp only [if_pos hij]
  · simp only [if_neg hij]
    have hi : (st.1.set j { body with needsUpdate := true })[i]? = st.1[i]? :=
      List.getElem?_set_ne (fun h => hij h.symm)
    have hj' : (st.1.set j { body with needsUpdate := true })[j]?
        = some { body with needsUpdate := true } := List.getElem?_set_self hlt
    rw [hi, hj', hj]
    cases st.1[i]? with
    | none => rfl
    | some obj1 =>
      dsimp only
      have hs : sphere2 { body with needsUpdate := true } = sphere2 body := rfl
      have hc : (constrainCollisions L st.2.1 st.2.2 obj1 { body with needsUpdate := true }).1
          = (constrainCollisions L st.2.1 st.2.2 obj1 body).1 := by
        apply Prod.ext
        · rw [constrainCollisions_velocity, constrainCollisions_velocity,
            narrowPhase_needsUpdate]
        · rw [constrainCollisions_rotation, constrainCollisions_rotation]
      rw [hs, hc]
      split <;> rfl

/-- C13: for every inactive body of the registry, one call of `updatePhysics`
leaves its velocity and its pending-force queue unchanged (and the body
inactive), whatever collides with it; and the body is still tested as `obj2`:
the sphere `sphere2`, the constraint that `constrainCollisions` returns and
the `velVector` and `rotVector` after the pair test of any body against it
are those of the same body when active. -/
theorem inactive_body_frame (L : Three K) (objects : List (GameObject K)) (ms : K)
    (params : Params K) (k : Nat) (body : GameObject K)
    (hk : objects[k]? = some body) (hin : body.needsUpdate = false) :
    (∃ body', (updatePhysics L objects ms params)[k]? = some body' ∧
      body'.needsUpdate = false ∧ body'.velocity = body.velocity ∧
      body'.forces = body.forces) ∧
    (∀ (obj1 : GameObject K) (vel : Vector3 K) (objRot : Euler K),
      sphere2 { body with needsUpdate := true } = sphere2 body ∧
      (constrainCollisions L vel objRot obj1 { body with needsUpdate := true }).1
        = (constrainCollisions L vel objRot obj1 body).1) ∧
    (∀ (i : Nat) (velVector : Vector3 K) (rotVector : Euler K),
      (collideWith L i
          (objects.set k { body with needsUpdate := true }, velVector, rotVector) k).2
        = (collideWith L i (objects, velVector, rotVector) k).2) := by
  refine ⟨?_, ?_, fun i velVector rotVector =>
    collideWith_needsUpdate L i k (objects, velVector, rotVector) body hk⟩
  · have hmap := updatePhysics_map
      (fun b : GameObject K =>
        (b.needsUpdate, if b.needsUpdate = true then none else some (b.velocity, b.forces)))
      (by
        intro obj force
        rcases applyForce_cases obj force with h | ⟨fv, hact, h⟩
        · rw [h]
        · rw [h]
          simp only [hact, if_true])
      (by
        intro obj ms hact
        have h1 : (obj.updateVelocity ms).needsUpdate = obj.needsUpdate := rfl
        simp only [h1, hact, if_true])
      (fun _ _ _ => rfl) L objects ms params
    have hget := congrArg (fun l => l[k]?) hmap
    simp only [List.getElem?_map, hk, Option.map_some'] at hget
    cases hb : (updatePhysics L objects ms params)[k]? with
    | none => rw [hb] at hget; cases hget
    | some body' =>
      rw [hb] at hget
      simp only [Option.map_some', Option.some.injEq, Prod.mk.injEq, hin] at hget
      obtain ⟨h1, h2⟩ := hget
      rw [h1] at h2
      simp only [Bool.false_eq_true, if_false, Option.some.injEq, Prod.mk.injEq] at h2
      exact ⟨body', rfl, h1, h2.1, h2.2⟩
  · intro obj1 vel objRot
    refine ⟨rfl, ?_⟩
    apply Prod.ext
    · rw [constrainCollisions_velocity, constrainCollisions_velocity, narrowPhase_needsUpdate]
    · rw [constrainCollisions_rotation, constrainCollisions_rotation]

end TickClaims

/-- C13, at the registry of the active `onePoint` falling on the inactive
`plate`: `plate` keeps its velocity and its empty queue. -/
theorem inactive_body_frame_witness :
    ([onePoint, plate] : List (GameObject ℝ))[1]? = some plate ∧
    (plate : GameObject ℝ).needsUpdate = false ∧
    ∃ body', (updatePhysics three [onePoint, plate] 1 ⟨some [gravity]⟩)[1]? = some body' ∧
      body'.needsUpdate = false ∧ body'.velocity = (plate : GameObject ℝ).velocity ∧
      body'.forces = (plate : GameObject ℝ).forces :=
  ⟨rfl, rfl,
   (inactive_body_frame three [onePoint, plate] 1 ⟨some [gravity]⟩ 1 plate rfl rfl).1⟩

/-! ### Rotation and free motion -/

section Rotation
variable {K : Type} [LinearOrderedField K]

/-- `applyForce` keeps the rotation and the rotational velocity. -/
theorem applyForce_rotation (obj : GameObject K) (force : ForceFn K) :
    (obj.applyForce force).rotation = obj.rotation ∧
    (obj.applyForce force).rotationalVelocity = obj.rotationalVelocity := by
  rcases applyForce_cases obj force with h | ⟨fv, _, h⟩ <;> rw [h] <;> exact ⟨rfl, rfl⟩

/-- The turn of `objects[i]` adds the body's `rotationalVelocity` to its
rotation and leaves the rotation of the other bodies as it is. -/
theorem bodyTurn_rotation (L : Three K) (ms : K) (params : Params K)
    (objects : List (GameObject K)) (i : Nat) (obj1 : GameObject K)
    (h : objects[i]? = some obj1) :
    (bodyTurn L ms params objects i).map GameObject.rotation
      = (objects.map GameObject.rotation).set i
          (obj1.rotation.add obj1.rotationalVelocity) := by
  obtain ⟨o, ho, heq⟩ := bodyTurn_eq L ms params objects i obj1 h
  obtain ⟨hmap, hrot⟩ := turnMotion_map GameObject.rotation
    (fun obj force => (applyForce_rotation obj force).1) (fun _ _ _ => rfl)
    L ms params objects i obj1 h
  have ho' : o.rotation = obj1.rotation := by
    have := congrArg (fun l => l[i]?) hmap
    simp only [List.getElem?_map, ho, h, Option.map_some', Option.some.injEq] at this
    exact this
  rw [heq, List.map_set, hmap, hrot]
  simp only [GameObject.move, GameObject.rotate, ho']

/-- After the turns of the bodies `0, ..., m - 1`, these have their
`rotationalVelocity` added to their rotation and the others have not. -/
theorem foldl_bodyTurn_rotation (L : Three K) (ms : K) (params : Params K)
    (objects : List (GameObject K)) (m : Nat) (hm : m ≤ objects.length) :
    ((List.range m).foldl (bodyTurn L ms params) objects).map GameObject.rotationalVelocity
      = objects.map GameObject.rotationalVelocity ∧
    ∀ k, (((List.range m).foldl (bodyTurn L ms params) objects).map GameObject.rotation)[k]?
      = (objects[k]?).map
          (fun b => if k < m then b.rotation.add b.rotationalVelocity else b.rotation) := by
  induction m with
  | zero =>
    refine ⟨rfl, fun k => ?_⟩
    simp
  | succ m ih =>
    obtain ⟨hv, hr⟩ := ih (Nat.le_of_succ_le hm)
    rw [List.range_succ, List.foldl_append, List.foldl_cons, List.foldl_nil]
    set cur := (List.range m).foldl (bodyTurn L ms params) objects with hcur
    have hlen : cur.length = objects.length := by
      have := congrArg List.length hv
      simpa using this
    have hmlt : m < cur.length := by omega
    have hget : cur[m]? = some cur[m] := List.getElem?_eq_getElem hmlt
    have hmo : m < objects.length := by omega
    have hgeto : objects[m]? = some objects[m] := List.getElem?_eq_getElem hmo
    have hrv : cur[m].rotationalVelocity = objects[m].rotationalVelocity := by
      have := congrArg (fun l => l[m]?) hv
      simp only [List.getElem?_map, hget, hgeto, Option.map_some', Option.some.injEq] at this
      exact this
    have hrm : cur[m].rotation = objects[m].rotation := by
      have := hr m
      simp only [List.getElem?_map, hget, hgeto, Option.map_some', Option.some.injEq,
        lt_irrefl, if_false] at this
      exact this
    constructor
    · rw [bodyTurn_map GameObject.rotationalVelocity
        (fun obj force => (applyForce_rotation obj force).2) (fun _ _ _ => rfl)
        (fun _ _ _ => rfl)]
      exact hv
    · intro k
      rw [bodyTurn_rotation L ms params cur m cur[m] hget, List.getElem?_set]
      by_cases hkm : m = k
      · subst hkm
        simp only [if_true, List.length_map, hmlt, hgeto, Option.map_some',
          Nat.lt_succ_self, hrm, hrv]
      · rw [if_neg hkm, hr k]
        have hiff : (k < m + 1) = (k < m) := by
          apply propext
          constructor
          · intro h1; omega
          · intro h1; omega
        simp only [hiff]

/-- One call of `updatePhysics` adds to the rotation of every body its
`rotationalVelocity`. -/
theorem updatePhysics_rotation (L : Three K) (objects : List (GameObject K)) (ms : K)
    (params : Params K) :
    (updatePhysics L objects ms params).map GameObject.rotation
      = objects.map (fun b => b.rotation.add b.rotationalVelocity) := by
  unfold updatePhysics
  dsimp only
  obtain ⟨_, hr⟩ := foldl_bodyTurn_rotation L (ms * (1 / 1000)) params objects objects.length
    (le_refl _)
  apply List.ext_getElem?
  intro k
  rw [hr k, List.getElem?_map]
  cases hk : objects[k]? with
  | none => rfl
  | some b =>
    have hlt : k < objects.length := (List.getElem?_eq_some.mp hk).1
    simp only [Option.map_some', hlt, if_true]

/-- C17: `constrainCollisions` always returns as its second component the
`objRot` it was given; in the turn of a body `rotVector` is its
`rotationalVelocity` whether or not a contact was found; and one call of
`updatePhysics` adds to the rotation of every body exactly its
`rotationalVelocity`. -/
theorem collisions_keep_rotation (L : Three K) :
    (∀ (vel : Vector3 K) (objRot : Euler K) (obj1 obj2 : GameObject K),
      (constrainCollisions L vel objRot obj1 obj2).1.2 = objRot) ∧
    (∀ (ms : K) (params : Params K) (objects : List (GameObject K)) (i : Nat)
        (obj1 : GameObject K), objects[i]? = some obj1 →
      (turnMotion L ms params objects i obj1).2.2 = obj1.rotationalVelocity) ∧
    (∀ (objects : List (GameObject K)) (ms : K) (params : Params K),
      (updatePhysics L objects ms params).map GameObject.rotation
        = objects.map (fun b => b.rotation.add b.rotationalVelocity)) :=
  ⟨constrainCollisions_rotation L,
   fun ms params objects i obj1 h =>
     (turnMotion_map GameObject.rotation
       (fun obj force => (applyForce_rotation obj force).1) (fun _ _ _ => rfl)
       L ms params objects i obj1 h).2,
   updatePhysics_rotation L⟩

end Rotation

/-- C17, at the registry of `onePoint` falling on `plate`, where a contact is
found: `rotVector` is still the `rotationalVelocity` of `onePoint`, and the
tick adds to every rotation the body's `rotationalVelocity`. -/
theorem collisions_keep_rotation_witness :
    ([onePoint, plate] : List (GameObject ℝ))[0]? = some onePoint ∧
    (turnMotion three (1 / 1000) ⟨some [gravity]⟩ [onePoint, plate] 0 onePoint).2.2
      = (onePoint : GameObject ℝ).rotationalVelocity ∧
    (updatePhysics three [onePoint, plate] 1 ⟨some [gravity]⟩).map GameObject.rotation
      = ([onePoint, plate] : List (GameObject ℝ)).map
          (fun b => b.rotation.add b.rotationalVelocity) :=
  ⟨rfl,
   (collisions_keep_rotation three).2.1 (1 / 1000) ⟨some [gravity]⟩ [onePoint, plate] 0
     onePoint rfl,
   (collisions_keep_rotation three).2.2 [onePoint, plate] 1 ⟨some [gravity]⟩⟩

section FreeMotion
variable {K : Type} [LinearOrderedField K]

/-- A pair test whose sphere test fails changes nothing. -/
theorem collideWith_free (L : Three K) (i j : Nat)
    (st : List (GameObject K) × Vector3 K × Euler K)
    (hfree : j ≠ i → ∀ o1 o2, st.1[i]? = some o1 → st.1[j]? = some o2 →
      (sphere1 o1 st.2.1).intersectsSphere (sphere2 o2) = false) :
    collideWith L i st j = st := by
  unfold collideWith
  split
  · rfl
  · rename_i hij
    split
    · rename_i obj1 obj2 h1 h2
      dsimp only
      rw [hfree (fun h => hij h.symm) obj1 obj2 h1 h2]
      simp
    · rfl

/-- A loop over `j` in which every sphere test fails changes nothing. -/
theorem foldl_collideWith_free (L : Three K) (i : Nat) (js : List Nat)
    (st : List (GameObject K) × Vector3 K × Euler K)
    (hfree : ∀ j, j ≠ i → ∀ o1 o2, st.1[i]? = some o1 → st.1[j]? = some o2 →
      (sphere1 o1 st.2.1).intersectsSphere (sphere2 o2) = false) :
    js.foldl (collideWith L i) st = st := by
  induction js with
  | nil => rfl
  | cons j js ih => rw [List.foldl_cons, collideWith_free L i j st (hfree j), ih]

/-- `applyForce` keeps the position and the geometry. -/
theorem applyForce_place (obj : GameObject K) (force : ForceFn K) :
    ((obj.applyForce force).position, (obj.applyForce force).geoBound)
      = (obj.position, obj.geoBound) := by
  rcases applyForce_cases obj force with h | ⟨fv, _, h⟩ <;> rw [h]

/-- In a turn in which no sphere test succeeds, `velVector` stays the
velocity of the body at the start of its turn. -/
theorem turnMotion_free (L : Three K) (ms : K) (params : Params K)
    (objects : List (GameObject K)) (i : Nat) (obj1 : GameObject K)
    (h : objects[i]? = some obj1)
    (hfree : obj1.needsUpdate = true → ∀ j obj2, j ≠ i → objects[j]? = some obj2 →
      (sphere1 obj1 obj1.velocity).intersectsSphere (sphere2 obj2) = false) :
    (turnMotion L ms params objects i obj1).2.1 = obj1.velocity := by
  unfold turnMotion
  split
  · rename_i hact
    rw [foldl_collideWith_free]
    intro j hji o1 o2 h1 h2
    obtain ⟨hlt, _⟩ := List.getElem?_eq_some.mp h
    rw [List.getElem?_set_self hlt] at h1
    rw [List.getElem?_set_ne (fun h => hji h.symm)] at h2
    have hplace : (o1.position, o1.geoBound) = (obj1.position, obj1.geoBound) := by
      rw [← Option.some.inj h1]
      show ((match params.worldForces with
            | some worldForces => worldForces.foldl GameObject.applyForce obj1
            | none => obj1).position,
          (match params.worldForces with
            | some worldForces => worldForces.foldl GameObject.applyForce obj1
            | none => obj1).geoBound) = (obj1.position, obj1.geoBound)
      split
      · exact foldl_applyForce_keeps (fun b : GameObject K => (b.position, b.geoBound))
          applyForce_place _ _
      · rfl
    have hs : sphere1 o1 obj1.velocity = sphere1 obj1 obj1.velocity := by
      simp only [Prod.mk.injEq] at hplace
      simp only [sphere1, hplace.1, hplace.2]
    show (sphere1 o1 obj1.velocity).intersectsSphere (sphere2 o2) = false
    rw [hs]
    exact hfree hact j o2 hji h2
  · rfl

/-- C18: in `updatePhysics`, the turn of a body `objects[i]`, active or
inactive, for which no bounding-sphere test succeeds adds to its position
exactly the velocity it had at the start of the turn (before the forces are
accumulated and integrated, and not scaled by `ms`), and adds its
`rotationalVelocity` to its rotation. An inactive body makes no sphere test. -/
theorem bodyTurn_free_motion (L : Three K) (ms : K) (params : Params K)
    (objects : List (GameObject K)) (i : Nat) (obj1 : GameObject K)
    (h : objects[i]? = some obj1)
    (hfree : obj1.needsUpdate = true → ∀ j obj2, j ≠ i → objects[j]? = some obj2 →
      (sphere1 obj1 obj1.velocity).intersectsSphere (sphere2 obj2) = false) :
    ((bodyTurn L ms params objects i)[i]?).map GameObject.position
      = some (obj1.position.add obj1.velocity) ∧
    ((bodyTurn L ms params objects i)[i]?).map GameObject.rotation
      = some (obj1.rotation.add obj1.rotationalVelocity) := by
  obtain ⟨o, ho, heq⟩ := bodyTurn_eq L ms params objects i obj1 h
  obtain ⟨hlt, _⟩ := List.getElem?_eq_some.mp ho
  have hvel := turnMotion_free L ms params objects i obj1 h hfree
  obtain ⟨hmapr, hrot⟩ := turnMotion_map GameObject.rotation
    (fun obj force => (applyForce_rotation obj force).1) (fun _ _ _ => rfl)
    L ms params objects i obj1 h
  obtain ⟨hmapp, _⟩ := turnMotion_map GameObject.position applyForce_position
    (fun _ _ _ => rfl) L ms params objects i obj1 h
  have hor : o.rotation = obj1.rotation := by
    have := congrArg (fun l => l[i]?) hmapr
    simp only [List.getElem?_map, ho, h, Option.map_some', Option.some.injEq] at this
    exact this
  have hop : o.position = obj1.position := by
    have := congrArg (fun l => l[i]?) hmapp
    simp only [List.getElem?_map, ho, h, Option.map_some', Option.some.injEq] at this
    exact this
  rw [heq, List.getElem?_set_self hlt, hvel, hrot]
  refine ⟨?_, ?_⟩ <;> simp [GameObject.move, GameObject.rotate, hop, hor]

end FreeMotion

/-- C18, at the active `onePoint` (velocity `(0, 0, -1)`) far from
`farTarget`, and at the inactive `driftingWall` (velocity `(1, 0, 0)`) next
to `plate`: both move by their velocity. -/
theorem bodyTurn_free_motion_witness :
    (([onePoint, farTarget] : List (GameObject ℝ))[0]? = some onePoint ∧
      ((onePoint : GameObject ℝ).needsUpdate = true → ∀ j obj2, j ≠ 0 →
        ([onePoint, farTarget] : List (GameObject ℝ))[j]? = some obj2 →
        (sphere1 (onePoint : GameObject ℝ) (onePoint : GameObject ℝ).velocity).intersectsSphere
          (sphere2 obj2) = false) ∧
      ((bodyTurn three (1 / 1000) ⟨some [gravity]⟩ [onePoint, farTarget] 0)[0]?).map
          GameObject.position
        = some ((onePoint : GameObject ℝ).position.add (onePoint : GameObject ℝ).velocity)) ∧
    (([driftingWall, plate] : List (GameObject ℝ))[0]? = some driftingWall ∧
      (driftingWall : GameObject ℝ).needsUpdate = false ∧
      ((bodyTurn three (1 / 1000) ⟨some [gravity]⟩ [driftingWall, plate] 0)[0]?).map
          GameObject.position
        = some ((driftingWall : GameObject ℝ).position.add
            (driftingWall : GameObject ℝ).velocity)) :=
  have hfree : (onePoint : GameObject ℝ).needsUpdate = true → ∀ j obj2, j ≠ 0 →
      ([onePoint, farTarget] : List (GameObject ℝ))[j]? = some obj2 →
      (sphere1 (onePoint : GameObject ℝ) (onePoint : GameObject ℝ).velocity).intersectsSphere
        (sphere2 obj2) = false := by
    intro _ j obj2 hj hget
    match j, hj, hget with
    | 0, hj, _ => exact absurd rfl hj
    | 1, _, hget =>
      simp only [List.getElem?_cons_succ, List.getElem?_cons_zero, Option.some.injEq] at hget
      subst hget
      simp [Sphere.intersectsSphere, sphere1, sphere2, onePoint, farTarget, bodyOf,
        pointGeometry, noGeometry, Vector3.distanceToSquared, Vector3.add]
      norm_num
    | j + 2, _, hget =>
      simp at hget
  ⟨⟨rfl, hfree,
    (bodyTurn_free_motion three (1 / 1000) ⟨some [gravity]⟩ [onePoint, farTarget] 0 onePoint
      rfl hfree).1⟩,
   ⟨rfl, rfl,
    (bodyTurn_free_motion three (1 / 1000) ⟨some [gravity]⟩ [driftingWall, plate] 0
      driftingWall rfl (fun h => Bool.noConfusion h)).1⟩⟩

end Bootleg
